import Mathlib

/-
Verification of the PCP port-mapping core of achingbrain/nat-port-mapper.

Shallow embedding of:
  * src/pcp/mappings.ts      — the `Mappings` table (namespace `MappingsTS`)
  * src/pcp/gateway.ts       — PCP request packet construction
                               (`newPCPRequestHeader`, `pcpRequestMAPPacket`),
                               the UDP request queue (`_next` / `request` /
                               `onMessage` / `processPCPMapResponse`), and the
                               epoch logic (`hasEpochChanged`, `announce`)
                               (namespace `PCPGw`)
  * src/upnp/utils.ts        — `findLocalAddresses`, and `mapAll` of the PCP
                               gateway (namespace `GwRuntime`)

JavaScript `Buffer`s are modelled as `List Nat` of byte values; machine reads
(`readUInt8`, `readUInt16BE`, `readUInt32BE`) return `Option` (with `none`
modelling the `RangeError` Node throws on an out-of-bounds read);
`Buffer.copy` is clipping and so is modelled totally.  JavaScript numbers that
the code only ever uses at integer values are modelled as `Nat`/`Int`;
millisecond/second arithmetic in `Mappings.getExpiring` is carried out in `ℚ`
(exact for every value that actually occurs; JS uses binary floating point,
which agrees with `ℚ` on the integer-valued inputs concerned here).
-/

namespace NatPM

/-- ASCII-range lower-casing of a string, as JS `String.prototype.toLowerCase`
behaves on the ASCII protocol strings used by this library (`Char.toLower`
maps `A`–`Z` to `a`–`z` and leaves everything else alone). -/
def jsLower (s : String) : String :=
  ⟨s.data.map Char.toLower⟩

/-- ASCII-range upper-casing of a string, as JS `String.prototype.toUpperCase`
behaves on ASCII input. -/
def jsUpper (s : String) : String :=
  ⟨s.data.map Char.toUpper⟩

/-- JS `String.prototype.startsWith`: the search string is a prefix of the
receiver. -/
def jsStartsWith (s searchString : String) : Bool :=
  searchString.data.isPrefixOf s.data

/-- `Buffer.compare a b` — lexicographic byte comparison: `-1`, `0` or `1`. -/
def bufCompare : List Nat → List Nat → Int
  | [], [] => 0
  | [], _ :: _ => -1
  | _ :: _, [] => 1
  | a :: as, b :: bs =>
    if a < b then -1 else if b < a then 1 else bufCompare as bs

/-- `source.copy(Buffer.alloc(targetLen, 0), 0, start, stop)` — the bytes of
`source` from `start` (inclusive) to `stop` (exclusive), clipped to the bytes
that exist, the rest of the zero-filled target left at zero. -/
def bufCopyRange (source : List Nat) (start stop targetLen : Nat) : List Nat :=
  let copied := (source.drop start).take (stop - start)
  copied ++ List.replicate (targetLen - copied.length) 0

/-- `msg.readUInt8(off)`; `none` models the `RangeError` thrown when the
buffer is too short. -/
def readUInt8 (msg : List Nat) (off : Nat) : Option Nat :=
  msg.get? off

/-- `msg.readUInt16BE(off)`. -/
def readUInt16BE (msg : List Nat) (off : Nat) : Option Nat := do
  let a ← msg.get? off
  let b ← msg.get? (off + 1)
  pure (a * 256 + b)

/-- `msg.readUInt32BE(off)`. -/
def readUInt32BE (msg : List Nat) (off : Nat) : Option Nat := do
  let a ← msg.get? off
  let b ← msg.get? (off + 1)
  let c ← msg.get? (off + 2)
  let d ← msg.get? (off + 3)
  pure (((a * 256 + b) * 256 + c) * 256 + d)

/-- Big-endian bytes of a 16-bit value (what `buf.writeUInt16BE` stores once
its `0 ≤ v ≤ 0xffff` range check has passed). -/
def be16 (v : Nat) : List Nat :=
  [v / 256 % 256, v % 256]

/-- Big-endian bytes of a 32-bit value (what `buf.writeUInt32BE` stores once
its range check has passed). -/
def be32 (v : Nat) : List Nat :=
  [v / 16777216 % 256, v / 65536 % 256, v / 256 % 256, v % 256]

/-- JS `value | 0` on an integer-valued number: truncation to a 32-bit signed
integer. -/
def jsToInt32 (t : Int) : Int :=
  (t + 2147483648) % 4294967296 - 2147483648

/-- Hex digit character. -/
def hexChar (n : Nat) : Char :=
  if n < 10 then Char.ofNat (48 + n) else Char.ofNat (87 + n)

/-- `Buffer.prototype.toString('hex')` of a byte list. -/
def bufToHex (l : List Nat) : String :=
  ⟨l.foldr (fun b acc => hexChar (b / 16 % 16) :: hexChar (b % 16) :: acc) []⟩

/-- Split a character list at every `'.'` (used to model the dotted-quad
parser of `@chainsafe/is-ip`). -/
def splitDot : List Char → List (List Char)
  | [] => [[]]
  | c :: cs =>
    let r := splitDot cs
    if c = '.' then [] :: r
    else
      match r with
      | h :: t => (c :: h) :: t
      | [] => [[c]]

/-- One decimal octet `0`–`255`, no leading zeros, at most three digits
(the dotted-quad grammar accepted by `@chainsafe/is-ip`). -/
def parseOctet (cs : List Char) : Option Nat :=
  if cs.length = 0 ∨ cs.length > 3 then none
  else if ¬ cs.all Char.isDigit then none
  else if cs.length > 1 ∧ cs.head? = some '0' then none
  else
    let v := cs.foldl (fun a c => a * 10 + (c.toNat - 48)) 0
    if v ≤ 255 then some v else none

/-- Dotted-quad IPv4 parser (the IPv4 side of `parseIP` from
`@chainsafe/is-ip`). -/
def parseIPv4 (s : String) : Option (Nat × Nat × Nat × Nat) :=
  match splitDot s.data with
  | [a, b, c, d] => do
    let a ← parseOctet a
    let b ← parseOctet b
    let c ← parseOctet c
    let d ← parseOctet d
    pure (a, b, c, d)
  | _ => none

/-- `isIPv4` from `@chainsafe/is-ip`. -/
def isIPv4 (s : String) : Bool :=
  (parseIPv4 s).isSome

/-- `parseIP(s, true)` from `@chainsafe/is-ip` for the addresses this
development needs: an IPv4 dotted quad is returned as the 16 bytes of the
IPv4-mapped IPv6 address `::ffff:a.b.c.d`, and the all-zero IPv6 literal
`0000:0000:0000:0000:0000:0000:0000:0000` (the `EMPTY_IPV6` constant, the
only IPv6 literal the embedded code paths feed to `parseIP`) as 16 zero
bytes.  Other textual IPv6 forms are not needed by any claim and are mapped
to `none`. -/
def parseIPMapped (s : String) : Option (List Nat) :=
  if s = "0000:0000:0000:0000:0000:0000:0000:0000" then
    some (List.replicate 16 0)
  else
    (parseIPv4 s).map fun q =>
      List.replicate 10 0 ++ [255, 255, q.1, q.2.1, q.2.2.1, q.2.2.2]

end NatPM

namespace NatPM.MappingsTS

/-- One row of the `Mappings` table (src/pcp/mappings.ts, `interface
Mapping`).  `expiresAt` is wall-clock milliseconds, `lifetime` seconds. -/
structure Mapping where
  protocol : String
  internalHost : String
  internalPort : Nat
  externalHost : Option String := none
  externalPort : Option Nat := none
  nonce : List Nat
  autoRefresh : Option Bool := none
  expiresAt : Option ℚ := none
  lifetime : Option ℚ := none
deriving DecidableEq, Repr

/-- `Mappings.new` (private): a fresh row.  The 12 random bytes produced by
`randomBytes(12)` are passed in as `freshNonce`. -/
def newMapping (internalHost : String) (internalPort : Nat) (protocol : String)
    (autoRefresh : Option Bool) (freshNonce : List Nat) : Mapping :=
  { protocol, internalHost, internalPort, nonce := freshNonce, autoRefresh }

/-- Row predicate of `Mappings.get`: same host, same port, protocol compared
case-insensitively. -/
def getMatch (internalHost : String) (internalPort : Nat) (protocol : String)
    (m : Mapping) : Bool :=
  m.internalHost == internalHost && m.internalPort == internalPort &&
    jsLower m.protocol == jsLower protocol

/-- `Mappings.get` — first row matching `(host, port, case-folded proto)`. -/
def get (tbl : List Mapping) (internalHost : String) (internalPort : Nat)
    (protocol : String) : Option Mapping :=
  tbl.find? (getMatch internalHost internalPort protocol)

/-- `Mappings.getByNonce` — first row whose nonce is byte-equal. -/
def getByNonce (tbl : List Mapping) (nonce : List Nat) : Option Mapping :=
  tbl.find? (fun m => m.nonce == nonce)

/-- `Mappings.getOrCreate` — returns the existing row, or appends a fresh one
built from `freshNonce`.  Result: the row and the updated table. -/
def getOrCreate (tbl : List Mapping) (internalHost : String)
    (internalPort : Nat) (protocol : String) (autoRefresh : Option Bool)
    (freshNonce : List Nat) : Mapping × List Mapping :=
  match get tbl internalHost internalPort protocol with
  | some m => (m, tbl)
  | none =>
    let m := newMapping internalHost internalPort protocol autoRefresh freshNonce
    (m, tbl ++ [m])

/-- Filter predicate of `Mappings.getExpiring` (`now` in milliseconds): rows
with `autoRefresh` truthy, `expiresAt` and `lifetime` set, and remaining
seconds strictly below half the lifetime. -/
def expiringPred (now : ℚ) (m : Mapping) : Bool :=
  if m.autoRefresh = some true then
    match m.expiresAt, m.lifetime with
    | some e, some l => decide ((e - now) / 1000 < l / 2)
    | _, _ => false
  else false

/-- `Mappings.getExpiring`. -/
def getExpiring (tbl : List Mapping) (now : ℚ) : List Mapping :=
  tbl.filter (expiringPred now)

/-- Row predicate of `Mappings.update`: same internal port, case-folded
protocol, byte-equal nonce (`Buffer.compare … === 0`). -/
def updateMatch (internalPort : Nat) (protocol : String) (nonce : List Nat)
    (m : Mapping) : Bool :=
  m.internalPort == internalPort &&
    jsLower m.protocol == jsLower protocol &&
    bufCompare m.nonce nonce == 0

/-- `Mappings.update` — writes the external fields on every matching row;
returns the new table and whether at least one row matched. -/
def update (tbl : List Mapping) (internalPort : Nat) (protocol : String)
    (nonce : List Nat) (externalHost : String) (externalPort : Nat)
    (expiresAt : ℚ) (lifetime : ℚ) : List Mapping × Bool :=
  (tbl.map fun m =>
      if updateMatch internalPort protocol nonce m then
        { m with
          externalHost := some externalHost
          externalPort := some externalPort
          expiresAt := some expiresAt
          lifetime := some lifetime }
      else m,
   tbl.any (updateMatch internalPort protocol nonce))

/-- `Mappings.delete` — drops every row matching `(host, port, case-folded
proto)`. -/
def deleteRows (tbl : List Mapping) (internalHost : String)
    (internalPort : Nat) (protocol : String) : List Mapping :=
  tbl.filter fun mn => !(getMatch internalHost internalPort protocol mn)

/-- A concrete auto-refreshing row with lifetime 100 s, used to evaluate the
expiry-policy boundary scenario (S2) at explicit inputs. -/
def exampleRow (expiresAt : ℚ) : Mapping :=
  { protocol := "TCP"
    internalHost := "10.0.0.1"
    internalPort := 5000
    nonce := List.replicate 12 1
    autoRefresh := some true
    expiresAt := some expiresAt
    lifetime := some 100 }

/-- A concrete freshly created row (nonce `N` = twelve `7` bytes), used to
evaluate the nonce-gated-update boundary scenario (S3) at explicit inputs. -/
def s3Row : Mapping :=
  { protocol := "TCP"
    internalHost := "10.0.0.1"
    internalPort := 5000
    nonce := List.replicate 12 7 }

end NatPM.MappingsTS

namespace NatPM.PCPGw

/-- Result code table of src/pcp/gateway.ts (`RESULT_CODES`); defined for the
codes `0`–`13` the table contains. -/
def resultMessage (rc : Nat) : String :=
  match rc with
  | 0 => "Success"
  | 1 => "Unsupported Version"
  | 2 => "Not Authorized/Refused (gateway may have NAT-PCP disabled)"
  | 3 => "Malformed request"
  | 4 => "Unsupported opcode"
  | 5 => "Unsupported option"
  | 6 => "Malformed option"
  | 7 => "Network failure"
  | 8 => "No resources"
  | 9 => "Unsupported protocol"
  | 10 => "Exceeded port quota"
  | 11 => "External port and/or external address cannot be provided"
  | 12 => "Address mismatch. Source IP address does not match requested PCP client address. Possibly using the wrong IP address e.g. IPv6 deprecated addresses or there is a NAT between the client and server"
  | 13 => "Excessive remote peers"
  | _ => ""

/-- One row of the PCP gateway's internal mapping list (src/pcp/gateway.ts,
`interface Mapping`).  The TS declaration types `externalHost` as `string`,
but the value `processPCPMapResponse` actually stores there is the raw
16-byte external-address buffer of the response, so it is modelled as an
optional byte list. -/
structure GMapping where
  protocol : String
  internalHost : String
  internalPort : Nat
  externalHost : Option (List Nat) := none
  externalPort : Option Nat := none
  nonce : List Nat
  expiresAt : Option Int := none
deriving DecidableEq, Repr

/-- A queued request (`this.queue` entry): the ghost sequence number `id`
records enqueue order, `op` is the PCP opcode of the request.  The encoded
packet bytes play no role in queue behaviour and are modelled separately by
`pcpRequestMAPPacket`. -/
structure Req where
  id : Nat
  op : Nat
deriving DecidableEq, Repr

/-- The fields a successful parse accumulates on the `parsed` object of
`onMessage` / `processPCPMapResponse`. -/
structure Parsed where
  vers : Nat := 0
  r : Nat := 0
  op : Nat := 0
  resultCode : Option Nat := none
  lifetime : Option Nat := none
  epoch : Option Nat := none
  nonce : Option (List Nat) := none
  protocol : Option String := none
  internalPort : Option Nat := none
  externalPort : Option Nat := none
  externalAddress : Option (List Nat) := none
deriving DecidableEq, Repr

/-- Externally observable effects of the queue code: a datagram send of the
request with the given sequence number, the resolution or rejection of its
deferred promise, or the silent dropping of a still-queued request when
`stop()` clears the queue. -/
inductive Action where
  | send (id : Nat)
  | resolve (id : Nat) (parsed : Parsed)
  | reject (id : Nat) (msg : String)
  | drop (id : Nat)
deriving DecidableEq, Repr

/-- Gateway state owned by the single-threaded event loop: the FIFO queue,
the socket flags, the in-flight marker (`reqActive` / `req`), the ghost
counter `nextId` for sequence numbers, the internal mapping list and the
stored epoch. -/
structure GState where
  queue : List Req := []
  listening : Bool := false
  connecting : Bool := false
  reqActive : Bool := false
  req : Option Nat := none
  nextId : Nat := 0
  mappings : List GMapping := []
  gatewayEpoch : Option Int := none
deriving DecidableEq, Repr

/-- `connect()`: if already connecting do nothing, else mark connecting (the
socket `bind(0)` completion later raises the `listening` event). -/
def connect (s : GState) : GState :=
  if s.connecting then s else { s with connecting := true }

/-- `_next()`: send the head of the queue, but only if the queue is
non-empty, the socket is listening, and no request is currently in flight;
when the socket is not yet listening, fall back to `connect()`. -/
def nextStep (s : GState) : GState × List Action :=
  match s.queue with
  | [] => (s, [])
  | r :: _ =>
    if ¬ s.listening then (if ¬ s.connecting then connect s else s, [])
    else if s.reqActive then (s, [])
    else ({ s with reqActive := true, req := some r.id }, [Action.send r.id])

/-- The `cb` closure of `onMessage`: clear the in-flight slot, settle the
head request's deferred promise (reject on error, resolve on success), then
`_next()`. -/
def cbStep (s : GState) (id : Nat) (out : Except String Parsed) :
    GState × List Action :=
  let s1 := { s with req := none, reqActive := false }
  let r := nextStep s1
  (r.1,
    (match out with
      | .error e => Action.reject id e
      | .ok p => Action.resolve id p) :: r.2)

/-- `getMappingFromNonce` — first internal row whose nonce is byte-equal
(`Buffer.equals`). -/
def getMappingFromNonce (mappings : List GMapping) (nonce : List Nat) :
    Option GMapping :=
  mappings.find? (fun mn => mn.nonce == nonce)

/-- Row predicate of `updateMappingNonce`: same internal port, case-folded
protocol, byte-equal nonce. -/
def gUpdateMatch (internalPort : Nat) (protocol : String) (nonce : List Nat)
    (m : GMapping) : Bool :=
  m.internalPort == internalPort &&
    jsLower m.protocol == jsLower protocol &&
    bufCompare m.nonce nonce == 0

/-- `updateMappingNonce` — writes the external fields and `expiresAt` on
every matching row; returns the new list and whether any row matched. -/
def updateMappingNonce (mappings : List GMapping) (internalPort : Nat)
    (protocol : String) (nonce : List Nat) (externalHost : List Nat)
    (externalPort : Nat) (expiresAt : Int) : List GMapping × Bool :=
  (mappings.map fun m =>
      if gUpdateMatch internalPort protocol nonce m then
        { m with
          externalHost := some externalHost
          externalPort := some externalPort
          expiresAt := some expiresAt }
      else m,
   mappings.any (gUpdateMatch internalPort protocol nonce))

/-- The opening `if` of `processPCPMapResponse`: when the response nonce is
not found among the stored mappings, `cb` is invoked with "Nonce not found in
mappings" — but, lacking a `return`, processing continues afterwards. -/
def nonceCheckStep (s : GState) (headId : Nat) (nonce : List Nat) :
    GState × List Action :=
  if (getMappingFromNonce s.mappings nonce).isNone then
    cbStep s headId (.error "Nonce not found in mappings")
  else (s, [])

/-- `processPCPMapResponse(msg, parsed, cb)`.  `s` has the answered request
already shifted off the queue; `now` is `Math.floor(Date.now() / 1000)`.
The `Option Parsed` is `none` when a buffer read throws (which unwinds the
datagram handler), and otherwise carries the `parsed` object as mutated so
far — the caller (`onMessage`) always continues to its trailing
`cb(undefined, parsed)` in that case, even after the error paths here have
already invoked `cb`, because their `return` only leaves this method.  Also
note the source quirk reproduced here: the "Nonce not found" branch invokes
`cb` with an error but does *not* return. -/
def processPCPMapResponse (s : GState) (headId : Nat) (msg : List Nat)
    (now : Int) (parsed : Parsed) : GState × List Action × Option Parsed :=
  let nonce := bufCopyRange msg 24 36 12
  let parsed := { parsed with nonce := some nonce }
  let a := nonceCheckStep s headId nonce
  match readUInt8 msg 36 with
  | none => (a.1, a.2, none)
  | some protoByte =>
    if protoByte = 6 ∨ protoByte = 17 then
      let protocol := if protoByte = 6 then "TCP" else "UDP"
      let parsed := { parsed with protocol := some protocol }
      match readUInt16BE msg 40 with
      | none => (a.1, a.2, none)
      | some internalPort =>
        match readUInt16BE msg 42 with
        | none => (a.1, a.2, none)
        | some externalPort =>
          let externalAddress := bufCopyRange msg 44 60 16
          let parsed := { parsed with
            internalPort := some internalPort
            externalPort := some externalPort
            externalAddress := some externalAddress }
          let u := updateMappingNonce a.1.mappings internalPort protocol nonce
            externalAddress externalPort
            ((now + (parsed.lifetime.getD 0 : Nat)) * 1000)
          let s2 := { a.1 with mappings := u.1 }
          if ¬ u.2 then
            -- `Could not find mapping for …` — `parsed.type` is undefined
            let b := cbStep s2 headId (.error
              ("Could not find mapping for " ++ toString internalPort ++
                ", undefined, " ++ bufToHex nonce))
            (b.1, a.2 ++ b.2, some parsed)
          else
            (s2, a.2, some parsed)
    else
      -- `parsed.protocol` has not been assigned yet, so the template prints
      -- `undefined`
      let b := cbStep a.1 headId (.error "Unsupported protocol: undefined")
      (b.1, a.2 ++ b.2, some parsed)

/-- `onMessage(msg, rinfo)` — the full datagram handler of the PCP gateway.
Note that `rinfo` is never inspected: the handler performs no source-address,
source-port or length validation.  The third component is `false` when a
buffer read throws out of the handler.  `now` is the wall clock in seconds
used for `expiresAt`. -/
def onMessage (s : GState) (msg : List Nat) (now : Int) :
    GState × List Action × Bool :=
  match s.queue with
  | [] => (s, [], true)
  | head :: rest =>
    match readUInt8 msg 0 with
    | none => (s, [], false)
    | some vers =>
      match readUInt8 msg 1 with
      | none => (s, [], false)
      | some b1 =>
        let r := (b1 >>> 7) &&& 1
        if r ≠ 1 then
          -- note: the queue is *not* shifted on this path
          let c := cbStep s head.id (.error
            ("\"R\" must be 1. Got: " ++ toString r))
          (c.1, c.2, true)
        else
        let op := b1 &&& 0x7F
        if op ≠ head.op then (s, [], true)
        else
        let s1 := { s with queue := rest }
        if vers ≠ 2 then
          let c := cbStep s1 head.id (.error
            ("\"vers\" must be 2. Got: " ++ toString vers))
          (c.1, c.2, true)
        else
        match readUInt8 msg 3 with
        | none => (s1, [], false)
        | some resultCode =>
          if resultCode > 13 then
            let c := cbStep s1 head.id (.error "Unsupported result code")
            (c.1, c.2, true)
          else if resultCode ≠ 0 then
            let c := cbStep s1 head.id (.error (resultMessage resultCode))
            (c.1, c.2, true)
          else
          match readUInt32BE msg 4 with
          | none => (s1, [], false)
          | some rawLifetime =>
            -- RFC 6887 §15: clamp lifetimes above 24 hours
            let lifetime := if rawLifetime > 24 * 60 * 60 then 24 * 60 * 60
              else rawLifetime
            match readUInt32BE msg 8 with
            | none => (s1, [], false)
            | some epoch =>
              let parsed : Parsed :=
                { vers, r := 1, op, resultCode := some resultCode
                  lifetime := some lifetime, epoch := some epoch }
              match head.op with
              | 0 =>
                -- OP_ANNOUNCE has no options to decode
                let c := cbStep s1 head.id (.ok parsed)
                (c.1, c.2, true)
              | 1 =>
                let pr := processPCPMapResponse s1 head.id msg now parsed
                match pr.2.2 with
                | none => (pr.1, pr.2.1, false)
                | some parsed2 =>
                  -- the trailing `cb(undefined, parsed)` runs on every
                  -- non-throwing MAP path, including after the error paths
                  -- of `processPCPMapResponse`
                  let c := cbStep pr.1 head.id (.ok parsed2)
                  (c.1, pr.2.1 ++ c.2, true)
              | o + 2 =>
                let c := cbStep s1 head.id (.error
                  ("Unsupported opcode: " ++ toString (o + 2)))
                (c.1, c.2, true)

/-- Events driving the gateway's single-threaded loop: `request op` is
`request()` called with an already-encoded packet of opcode `op` (push to the
queue, then `_next()`); `listening` is the socket's bind-complete callback;
`message` is an inbound datagram; `close` the socket close callback;
`stop` is `stop()`, which clears the queue and flags.  (`map()`'s
abort-signal path does not touch the queue and needs no event.) -/
inductive Event where
  | request (op : Nat)
  | listening
  | message (msg : List Nat) (now : Int)
  | close
  | stop
deriving DecidableEq, Repr

/-- One event of the loop.  The third component is `false` when the handler
threw (an uncaught exception in a `dgram` handler, which halts the loop). -/
def step (s : GState) (e : Event) : GState × List Action × Bool :=
  match e with
  | .request op =>
    let s1 := { s with
      queue := s.queue ++ [⟨s.nextId, op⟩]
      nextId := s.nextId + 1 }
    let r := nextStep s1
    (r.1, r.2, true)
  | .listening =>
    let s1 := { s with listening := true, connecting := false }
    let r := nextStep s1
    (r.1, r.2, true)
  | .message msg now => onMessage s msg now
  | .close => ({ s with listening := false, connecting := false }, [], true)
  | .stop =>
    ({ s with
        queue := [], listening := false, connecting := false
        reqActive := false, req := none },
     s.queue.map (fun r => Action.drop r.id), true)

/-- Run the loop over a list of events, concatenating the emitted actions;
processing halts at the first event whose handler throws. -/
def run (s : GState) : List Event → GState × List Action × Bool
  | [] => (s, [], true)
  | e :: es =>
    let r := step s e
    if r.2.2 then
      let t := run r.1 es
      (t.1, r.2.1 ++ t.2.1, t.2.2)
    else (r.1, r.2.1, false)

/-- Does this action settle (resolve, reject or drop) request `i`? -/
def isSettle (i : Nat) : Action → Bool
  | .resolve j _ => j == i
  | .reject j _ => j == i
  | .drop j => j == i
  | .send _ => false

/-- Request `i` is settled somewhere in the trace. -/
def settledIn (tr : List Action) (i : Nat) : Prop :=
  ∃ a ∈ tr, isSettle i a = true

/-- FIFO discipline of a trace: any send of request `j` is preceded by a
settling action for every earlier request `i < j`. -/
def fifoTrace (tr : List Action) : Prop :=
  ∀ p j, tr.get? p = some (Action.send j) → ∀ i < j,
    ∃ q < p, ∃ a, tr.get? q = some a ∧ isSettle i a = true

/-- Consecutive sequence numbers `lo, lo+1, …, lo+n-1`. -/
def consecFrom (lo : Nat) : Nat → List Nat
  | 0 => []
  | n + 1 => lo :: consecFrom (lo + 1) n

/-- Sequence numbers currently queued. -/
def qIds (s : GState) : List Nat :=
  s.queue.map Req.id

/-- Loop invariant tying a state to the trace emitted so far: the queue holds
consecutive sequence numbers `lo … nextId-1`, and every request numbered
below `lo` has already been settled. -/
def Inv (s : GState) (tr : List Action) : Prop :=
  ∃ lo, lo ≤ s.nextId ∧ qIds s = consecFrom lo (s.nextId - lo) ∧
    ∀ i < lo, settledIn tr i

/-- Per-block FIFO obligation: any send inside the block `B` (appended after
`tr`) already has every earlier request settled by then. -/
def BlockOk (tr B : List Action) : Prop :=
  ∀ p j, B.get? p = some (Action.send j) → ∀ i < j,
    settledIn (tr ++ B.take p) i

/-- `hasEpochChanged(epoch)` (src/pcp/gateway.ts lines 434-453): with a
stored epoch, project the reply's epoch field onto the local clock
(`now − epoch`) and report a change when the projection went backwards or
drifted by more than `EPOCH_DRIFT = 10` seconds. -/
def hasEpochChanged (gatewayEpoch : Option Int) (now : Int) (epoch : Int) :
    Bool :=
  match gatewayEpoch with
  | none => false
  | some k =>
    let newEpoch := now - epoch
    if newEpoch < k then true
    else if (newEpoch - k).natAbs > 10 then true
    else false

/-- The epoch bookkeeping of `announce()` (src/pcp/gateway.ts lines 255-263)
after a successful ANNOUNCE reply: on the first reply store the projected
epoch; on later replies evaluate `hasEpochChanged` — the epoch-change branch
of the source is the bare comment `// todo remap all ports`, and no `remap`
method exists in the gateway — and overwrite `gatewayEpoch` with the raw
reply epoch.  The boolean result records whether a remap was triggered: it is
`false` on every path. -/
def announceProcessEpoch (gatewayEpoch : Option Int) (now : Int)
    (resultEpoch : Int) : Option Int × Bool :=
  match gatewayEpoch with
  | none => (some (now - resultEpoch), false)
  | some k =>
    let _changed := hasEpochChanged (some k) now resultEpoch
    -- `if (this.hasEpochChanged(result.epoch)) { // todo remap all ports }`
    (some resultEpoch, false)

/-- Lifetime selection of `pcpRequestMAPPacket`: `Number(obj.ttl ??
this.options.ttl ?? 0)`, replaced by `MINIMUM_LIFETIME = 120` when the value
does not survive `| 0` (i.e. is not a 32-bit signed integer). -/
def pcpTtl (objTtl optionsTtl : Option Int) : Int :=
  let ttl := (objTtl.orElse fun _ => optionsTtl).getD 0
  if ttl ≠ jsToInt32 ttl then 120 else ttl

/-- `newPCPRequestHeader(clientIP, ttl, opcode)` — the 24-byte PCP request
header: version (=2), R-bit 0 + opcode, 2 reserved bytes, 32-bit lifetime,
16-byte client IP.  `none` models the throws: `writeUInt32BE` rejects
lifetimes outside `0 … 2^32-1`, and an unparsable IP raises "Could not parse
IP". -/
def newPCPRequestHeader (clientIP : String) (ttl : Int) (opcode : Nat) :
    Option (List Nat) :=
  if ttl < 0 ∨ 4294967296 ≤ ttl then none
  else
    match parseIPMapped clientIP with
    | none => none
    | some ipBuf =>
      some ([2, ((0 <<< 7) ||| (opcode &&& 0x7F)) &&& 0xFF, 0, 0] ++
        be32 ttl.toNat ++ ipBuf)

/-- `pcpRequestMAPPacket(localPort, obj)` — the 60-byte MAP request: the
24-byte header, then the 36-byte MAP opcode data.  The row nonce produced by
`getOrCreateMappingNonce` is passed in as `nonce` (clipped/zero-padded to 12
bytes exactly as `nonce.copy(buf, 24, 0, 12)` behaves).  Byte 37 is written
twice by the source — `buf.writeUInt8(OP_MAP, pos)` immediately followed by
`buf.writeUInt16BE(0, pos)` at the same `pos = 37` — so bytes 37-38 end up
zero, and byte 39 keeps the zero of `Buffer.alloc`; hence the three reserved
bytes `[0, 0, 0]` below.  `none` models every throwing path: missing/invalid
protocol, unparsable IP, out-of-range `writeUInt16BE`. -/
def pcpRequestMAPPacket (optionsTtl : Option Int) (localPort : Nat)
    (objTtl : Option Int) (clientAddress : String) (protocol : String)
    (suggestedExternalPort : Option Nat)
    (suggestedExternalAddress : Option String) (nonce : List Nat) :
    Option (List Nat) := do
  let ttl := pcpTtl objTtl optionsTtl
  let header ← newPCPRequestHeader clientAddress ttl 1
  let nonce12 := nonce.take 12 ++ List.replicate (12 - nonce.length) 0
  let protoByte ←
    if protocol = "udp" ∨ protocol = "UDP" then some 0x11
    else if protocol = "tcp" ∨ protocol = "TCP" then some 0x06
    else none
  if 65536 ≤ localPort then none
  else
    let sep := suggestedExternalPort.getD localPort
    if 65536 ≤ sep then none
    else do
      let suggestedIP ←
        match suggestedExternalAddress with
        | some a => parseIPMapped a
        | none =>
          if isIPv4 clientAddress then parseIPMapped "0.0.0.0"
          else parseIPMapped "0000:0000:0000:0000:0000:0000:0000:0000"
      pure (header ++ nonce12 ++ [protoByte] ++ [0, 0, 0] ++
        be16 localPort ++ be16 sep ++ suggestedIP)


/-- Concrete 12-byte nonce for the response-clamp boundary scenario (S5). -/
def c7Nonce : List Nat := List.replicate 12 5

/-- Concrete stored mapping row for scenario S5. -/
def c7Mapping : GMapping :=
  { protocol := "TCP"
    internalHost := "192.168.1.10"
    internalPort := 5000
    nonce := c7Nonce }

/-- Gateway state with one in-flight MAP request and the S5 row stored. -/
def c7State : GState :=
  { queue := [⟨0, 1⟩]
    listening := true
    reqActive := true
    req := some 0
    mappings := [c7Mapping] }

/-- A 60-byte successful MAP response declaring a lifetime of 100000 s
(bytes 4-7 = `00 01 86 A0`), server epoch 50, the S5 nonce, protocol TCP,
internal and external port 5000, external address sixteen `9` bytes. -/
def c7Msg : List Nat :=
  [2, 129, 0, 0, 0, 1, 134, 160, 0, 0, 0, 50] ++ List.replicate 12 0 ++
    c7Nonce ++ [6, 0, 0, 0, 19, 136, 19, 136] ++ List.replicate 16 9

/-- The parsed object the S5 response resolves with. -/
def c7ParsedRes : Parsed :=
  { vers := 2
    r := 1
    op := 1
    resultCode := some 0
    lifetime := some 86400
    epoch := some 50
    nonce := some c7Nonce
    protocol := some "TCP"
    internalPort := some 5000
    externalPort := some 5000
    externalAddress := some (List.replicate 16 9) }

/-- The S5 row after the update triggered by the response. -/
def c7UpdatedMapping : GMapping :=
  { c7Mapping with
    externalHost := some (List.replicate 16 9)
    externalPort := some 5000
    expiresAt := some ((1000 + 86400) * 1000) }

def c3Msg : List Nat := [2, 128, 0, 0, 0, 0, 0, 60, 0, 0, 0, 100]

def c3Events : List Event :=
  [Event.request 0, Event.request 0, Event.listening, Event.message c3Msg 5]

def c3SendState : GState :=
  { queue := [⟨0, 1⟩], listening := true }

def c3MismatchState : GState :=
  { queue := [⟨7, 1⟩], listening := true, reqActive := true, req := some 7 }

def c3BadMsg : List Nat := [2, 128, 0, 0]

end NatPM.PCPGw

namespace NatPM.GwRuntime

/-- One entry of `os.networkInterfaces()` as `findLocalAddresses` inspects
it: the textual address, the family string (`"IPv4"` / `"IPv6"`), and the
loopback flag. -/
structure NetworkInterfaceInfo where
  address : String
  family : String
  internal : Bool
deriving DecidableEq, Repr

/-- The filter of `findLocalAddresses` (src/upnp/utils.ts lines 64-101):
keep non-internal interfaces of the requested family, skipping IPv6
addresses that start with `fe80` and IPv4 addresses that start with
`169.254`. -/
def eligible (family : String) (i : NetworkInterfaceInfo) : Bool :=
  !i.internal && i.family == family &&
    !(i.family == "IPv6" && jsStartsWith i.address "fe80") &&
    !(i.family == "IPv4" && jsStartsWith i.address "169.254")

/-- The addresses `findLocalAddresses` yields, in interface order. -/
def eligibleAddresses (family : String)
    (ifaces : List NetworkInterfaceInfo) : List String :=
  (ifaces.filter (eligible family)).map NetworkInterfaceInfo.address

/-- `findLocalAddresses(family)` consumed to completion: the generator
yields each eligible address and throws at the end when it yielded none. -/
def findLocalAddresses (family : String)
    (ifaces : List NetworkInterfaceInfo) : Except String (List String) :=
  let hosts := eligibleAddresses family ifaces
  if hosts.isEmpty then
    .error "Could not detect any local addresses eligible for mapping - please pass a `localAddress` to the map function instead"
  else .ok hosts

/-- The `PortMapping` record returned by `PCPGateway.map`. -/
structure PortMappingR where
  externalHost : String
  externalPort : Option Nat
  internalHost : String
  internalPort : Option Nat
  protocol : Option String
deriving DecidableEq, Repr

/-- `PCPGateway.mapAll(internalPort, options)` consumed to completion: walk
`findLocalAddresses(this.family)`; per-host errors of `map` are logged and
skipped; each success is yielded; if none succeeded throw
`All attempts to map port N failed`.  A throw of the address generator
itself (no eligible address) propagates before any mapping is attempted.
`attempt` abstracts the network outcome of `this.map(internalPort, host,
options)` per host. -/
def mapAll (family : String) (ifaces : List NetworkInterfaceInfo)
    (internalPort : Nat) (attempt : String → Except String PortMappingR) :
    Except String (List PortMappingR) :=
  match findLocalAddresses family ifaces with
  | .error e => .error e
  | .ok hosts =>
    let successes := hosts.filterMap fun h => (attempt h).toOption
    if successes.isEmpty then
      .error ("All attempts to map port " ++ toString internalPort ++ " failed")
    else .ok successes

/-- A per-host `map` outcome that always fails (used to evaluate `mapAll` at
concrete inputs). -/
def failAttempt : String → Except String PortMappingR :=
  fun _ => .error "map failed"

/-- The result object built at the end of a successful
`PCPGateway.map(internalPort, internalHost, opts)` (src/pcp/gateway.ts lines
336-342).  `isPriv` is the value of `isPrivateIp(internalHost)` (an external
helper returning `true`, `false` or `undefined`), `extIpLookup` the value the
separate `this.externalIp(opts)` lookup would resolve to, and `result` the
parsed MAP response the deferred promise resolved with. -/
def mapReturn (internalHost : String) (isPriv : Option Bool)
    (extIpLookup : String) (result : PCPGw.Parsed) : PortMappingR :=
  { externalHost := if isPriv = some true then extIpLookup else internalHost
    externalPort := result.externalPort
    internalHost := internalHost
    internalPort := result.internalPort
    protocol := result.protocol }

/-- Concrete interface list for the error-aggregation boundary scenario
(S7): a loopback interface, an IPv4 link-local interface, and two ordinary
LAN interfaces. -/
def s7Ifaces : List NetworkInterfaceInfo :=
  [{ address := "127.0.0.1", family := "IPv4", internal := true },
   { address := "169.254.7.7", family := "IPv4", internal := false },
   { address := "192.168.1.5", family := "IPv4", internal := false },
   { address := "10.0.0.5", family := "IPv4", internal := false }]

/-- The mapping produced by the one interface of `s7Ifaces` whose `map`
attempt succeeds. -/
def s7Mapping : PortMappingR :=
  { externalHost := "10.0.0.5"
    externalPort := some 5000
    internalHost := "10.0.0.5"
    internalPort := some 5000
    protocol := some "TCP" }

/-- A per-host `map` outcome for scenario S7: succeeds on `10.0.0.5` only. -/
def s7Attempt : String → Except String PortMappingR :=
  fun h => if h = "10.0.0.5" then .ok s7Mapping else .error "map failed"

end NatPM.GwRuntime

namespace NatPM

theorem charOfNat_toNat_of_lt {n : Nat} (h : n < 55296) :
    (Char.ofNat n).toNat = n := by
  unfold Char.ofNat
  split
  · rfl
  · rename_i h2
    exact absurd (Or.inl h) h2

theorem charToLower_eq (c : Char) :
    c.toLower = if c.toNat ≥ 65 ∧ c.toNat ≤ 90 then Char.ofNat (c.toNat + 32)
      else c :=
  rfl

theorem charToUpper_eq (c : Char) :
    c.toUpper = if c.toNat ≥ 97 ∧ c.toNat ≤ 122 then Char.ofNat (c.toNat - 32)
      else c :=
  rfl

theorem charToLower_toUpper (c : Char) : c.toUpper.toLower = c.toLower := by
  rw [charToUpper_eq]
  by_cases h1 : c.toNat ≥ 97 ∧ c.toNat ≤ 122
  · rw [if_pos h1, charToLower_eq, charToLower_eq]
    have hv : (Char.ofNat (c.toNat - 32)).toNat = c.toNat - 32 :=
      charOfNat_toNat_of_lt (by omega)
    simp only [hv]
    rw [if_pos (by omega : c.toNat - 32 ≥ 65 ∧ c.toNat - 32 ≤ 90),
      if_neg (by omega : ¬(c.toNat ≥ 65 ∧ c.toNat ≤ 90))]
    have h4 : c.toNat - 32 + 32 = c.toNat := by omega
    rw [h4, Char.ofNat_toNat]
  · rw [if_neg h1]

theorem charToLower_idem (c : Char) : c.toLower.toLower = c.toLower := by
  by_cases h1 : c.toNat ≥ 65 ∧ c.toNat ≤ 90
  · conv_lhs => rw [charToLower_eq c, if_pos h1]
    conv_rhs => rw [charToLower_eq c, if_pos h1]
    have hv : (Char.ofNat (c.toNat + 32)).toNat = c.toNat + 32 :=
      charOfNat_toNat_of_lt (by omega)
    rw [charToLower_eq]
    rw [if_neg (show ¬((Char.ofNat (c.toNat + 32)).toNat ≥ 65 ∧
      (Char.ofNat (c.toNat + 32)).toNat ≤ 90) by rw [hv]; omega)]
  · conv_lhs => rw [charToLower_eq c, if_neg h1]

theorem jsLower_jsUpper (s : String) : jsLower (jsUpper s) = jsLower s := by
  unfold jsLower jsUpper
  simp only [List.map_map]
  congr 1
  exact List.map_congr_left fun c _ => charToLower_toUpper c

theorem jsLower_jsLower (s : String) : jsLower (jsLower s) = jsLower s := by
  unfold jsLower
  simp only [List.map_map]
  congr 1
  exact List.map_congr_left fun c _ => charToLower_idem c

theorem bufCompare_eq_zero_iff :
    ∀ a b : List Nat, bufCompare a b = 0 ↔ a = b := by
  intro a
  induction a with
  | nil => intro b; cases b <;> simp [bufCompare]
  | cons x xs ih =>
    intro b
    cases b with
    | nil => simp [bufCompare]
    | cons y ys =>
      simp only [bufCompare]
      by_cases hxy : x < y
      · simp only [hxy, if_true]
        constructor
        · intro h; exact absurd h (by decide)
        · intro h
          injection h with h1 h2
          omega
      · by_cases hyx : y < x
        · simp only [hxy, if_false, hyx, if_true]
          constructor
          · intro h; exact absurd h (by decide)
          · intro h
            injection h with h1 h2
            omega
        · have hxyeq : x = y := by omega
          subst hxyeq
          simp only [hxy, if_false, hyx, if_false, ih ys, List.cons.injEq,
            true_and]

end NatPM

namespace NatPM.MappingsTS

theorem getMatch_jsUpper (h : String) (p : Nat) (proto : String)
    (m : Mapping) :
    getMatch h p (jsUpper proto) m = getMatch h p proto m := by
  unfold getMatch
  rw [jsLower_jsUpper]

theorem getMatch_jsLower (h : String) (p : Nat) (proto : String)
    (m : Mapping) :
    getMatch h p (jsLower proto) m = getMatch h p proto m := by
  unfold getMatch
  rw [jsLower_jsLower]

theorem get_of_fresh (tbl : List Mapping) (h : String) (p : Nat)
    (proto : String) (ar : Option Bool) (n : List Nat)
    (hg : get tbl h p proto = none) :
    get (tbl ++ [newMapping h p proto ar n]) h p proto =
      some (newMapping h p proto ar n) := by
  unfold get at hg ⊢
  rw [List.find?_append, hg]
  simp [newMapping, getMatch]

theorem getOrCreate_idem (tbl : List Mapping) (h : String) (p : Nat)
    (proto : String) (ar1 ar2 : Option Bool) (n1 n2 : List Nat) :
    getOrCreate (getOrCreate tbl h p proto ar1 n1).2 h p proto ar2 n2 =
      getOrCreate tbl h p proto ar1 n1 := by
  unfold getOrCreate
  cases hg : get tbl h p proto with
  | some m => simp [hg]
  | none => simp [hg, get_of_fresh tbl h p proto ar1 n1 hg]

end NatPM.MappingsTS

namespace NatPM.MappingsTS

theorem expiringPred_iff (now : ℚ) (m : Mapping) :
    expiringPred now m = true ↔ m.autoRefresh = some true ∧
      ∃ e l, m.expiresAt = some e ∧ m.lifetime = some l ∧
        (e - now) / 1000 < l / 2 := by
  unfold expiringPred
  by_cases har : m.autoRefresh = some true
  · rw [if_pos har]
    cases he : m.expiresAt with
    | none => simp [he, har]
    | some e =>
      cases hl : m.lifetime with
      | none => simp [he, hl, har]
      | some l => simp [he, hl, har]
  · rw [if_neg har]
    simp [har]

theorem updateMatch_iff (port : Nat) (proto : String) (nonce : List Nat)
    (m : Mapping) :
    updateMatch port proto nonce m = true ↔
      m.internalPort = port ∧ jsLower m.protocol = jsLower proto ∧
        m.nonce = nonce := by
  unfold updateMatch
  simp [bufCompare_eq_zero_iff, and_assoc]

/-- C8: `getOrCreate` is idempotent per `(host, port, proto)` triple — a
repeated call (and any further sequence of calls with the identical triple)
returns the row of the first call and leaves the table unchanged, appending
no duplicate — and `get` compares the protocol case-insensitively:
`get h p proto = get h p proto.toUpperCase() = get h p proto.toLowerCase()`. -/
theorem c8_getOrCreate_dedup_get_case_insensitive :
    (∀ (tbl : List Mapping) (h : String) (p : Nat) (proto : String)
        (ar1 ar2 : Option Bool) (n1 n2 : List Nat),
      getOrCreate (getOrCreate tbl h p proto ar1 n1).2 h p proto ar2 n2 =
        getOrCreate tbl h p proto ar1 n1) ∧
    (∀ (tbl : List Mapping) (h : String) (p : Nat) (proto : String)
        (ar1 : Option Bool) (n1 : List Nat)
        (rest : List (Option Bool × List Nat)),
      rest.foldl (fun st x => getOrCreate st.2 h p proto x.1 x.2)
          (getOrCreate tbl h p proto ar1 n1) =
        getOrCreate tbl h p proto ar1 n1) ∧
    (∀ (tbl : List Mapping) (h : String) (p : Nat) (proto : String),
      get tbl h p (jsUpper proto) = get tbl h p proto ∧
      get tbl h p (jsLower proto) = get tbl h p proto) := by
  refine ⟨fun tbl h p proto ar1 ar2 n1 n2 =>
    getOrCreate_idem tbl h p proto ar1 ar2 n1 n2, ?_, ?_⟩
  · intro tbl h p proto ar1 n1 rest
    induction rest with
    | nil => rfl
    | cons x xs ih =>
      rw [List.foldl_cons]
      calc xs.foldl (fun st y => getOrCreate st.2 h p proto y.1 y.2)
            (getOrCreate (getOrCreate tbl h p proto ar1 n1).2 h p proto x.1 x.2)
          = xs.foldl (fun st y => getOrCreate st.2 h p proto y.1 y.2)
            (getOrCreate tbl h p proto ar1 n1) := by
            rw [getOrCreate_idem]
        _ = getOrCreate tbl h p proto ar1 n1 := ih
  · intro tbl h p proto
    constructor
    · unfold get
      have hf : getMatch h p (jsUpper proto) = getMatch h p proto :=
        funext fun m => getMatch_jsUpper h p proto m
      rw [hf]
    · unfold get
      have hf : getMatch h p (jsLower proto) = getMatch h p proto :=
        funext fun m => getMatch_jsLower h p proto m
      rw [hf]

/-- C5: `getExpiring()` returns exactly the rows with `autoRefresh` true,
`expiresAt` and `lifetime` both set, and `(expiresAt − now) / 1000 <
lifetime / 2` (remaining seconds strictly below half the lifetime); with
lifetime 100 s, a row expiring 30 s from now is returned and a row expiring
80 s from now is not. -/
theorem c5_getExpiring_spec :
    (∀ (tbl : List Mapping) (now : ℚ) (m : Mapping),
      m ∈ getExpiring tbl now ↔
        m ∈ tbl ∧ m.autoRefresh = some true ∧
          ∃ e l, m.expiresAt = some e ∧ m.lifetime = some l ∧
            (e - now) / 1000 < l / 2) ∧
    getExpiring [exampleRow 30000] 0 = [exampleRow 30000] ∧
    getExpiring [exampleRow 80000] 0 = [] := by
  refine ⟨?_, ?_, ?_⟩
  · intro tbl now m
    unfold getExpiring
    rw [List.mem_filter, expiringPred_iff]
  · unfold getExpiring
    rw [List.filter_cons]
    rw [if_pos ?_]
    · rfl
    · rw [expiringPred_iff]
      refine ⟨rfl, 30000, 100, rfl, rfl, by norm_num⟩
  · unfold getExpiring
    rw [List.filter_cons]
    rw [if_neg ?_, List.filter_nil]
    rw [expiringPred_iff]
    rintro ⟨-, e, l, he, hl, hlt⟩
    injection he with he
    injection hl with hl
    subst he
    subst hl
    norm_num at hlt

/-- C6: `update(internalPort, proto, nonce, …)` writes `externalHost`,
`externalPort`, `expiresAt` and `lifetime` on every row whose internal port
matches, whose protocol matches case-insensitively and whose nonce is
byte-equal; it returns `true` iff at least one row matched, and when no row
matches it returns `false` and leaves the table unchanged.  Concretely
(scenario S3): with a single row of nonce `N`, updating with a different
nonce returns `false` and changes nothing, and updating with protocol
`"tcp"` and nonce `N` returns `true` and writes the external fields. -/
theorem c6_update_spec :
    (∀ (tbl : List Mapping) (port : Nat) (proto : String) (nonce : List Nat)
        (eh : String) (ep : Nat) (ea lt : ℚ),
      ((update tbl port proto nonce eh ep ea lt).2 = true ↔
        ∃ m ∈ tbl, m.internalPort = port ∧
          jsLower m.protocol = jsLower proto ∧ m.nonce = nonce) ∧
      (update tbl port proto nonce eh ep ea lt).1 = tbl.map (fun m =>
        if m.internalPort = port ∧ jsLower m.protocol = jsLower proto ∧
            m.nonce = nonce then
          { m with
            externalHost := some eh
            externalPort := some ep
            expiresAt := some ea
            lifetime := some lt }
        else m) ∧
      ((update tbl port proto nonce eh ep ea lt).2 = false →
        (update tbl port proto nonce eh ep ea lt).1 = tbl)) ∧
    update [s3Row] 5000 "TCP" (List.replicate 12 9) "1.2.3.4" 6000 99 1234 =
      ([s3Row], false) ∧
    update [s3Row] 5000 "tcp" (List.replicate 12 7) "1.2.3.4" 6000 99 1234 =
      ([{ s3Row with
          externalHost := some "1.2.3.4"
          externalPort := some 6000
          expiresAt := some 99
          lifetime := some 1234 }], true) := by
  refine ⟨?_, by decide, by decide⟩
  intro tbl port proto nonce eh ep ea lt
  refine ⟨?_, ?_, ?_⟩
  · show tbl.any (updateMatch port proto nonce) = true ↔ _
    rw [List.any_eq_true]
    constructor
    · rintro ⟨m, hm, hmatch⟩
      exact ⟨m, hm, (updateMatch_iff port proto nonce m).mp hmatch⟩
    · rintro ⟨m, hm, hmatch⟩
      exact ⟨m, hm, (updateMatch_iff port proto nonce m).mpr hmatch⟩
  · show tbl.map _ = tbl.map _
    refine List.map_congr_left fun m _ => ?_
    by_cases hm : m.internalPort = port ∧ jsLower m.protocol = jsLower proto ∧
        m.nonce = nonce
    · rw [if_pos ((updateMatch_iff port proto nonce m).mpr hm), if_pos hm]
    · rw [if_neg (fun hc => hm ((updateMatch_iff port proto nonce m).mp hc)),
        if_neg hm]
  · intro hfalse
    show tbl.map _ = tbl
    have hall : ∀ m ∈ tbl, ¬(updateMatch port proto nonce m = true) := by
      intro m hm hmatch
      have : tbl.any (updateMatch port proto nonce) = true :=
        List.any_eq_true.mpr ⟨m, hm, hmatch⟩
      rw [show tbl.any (updateMatch port proto nonce) =
        (update tbl port proto nonce eh ep ea lt).2 from rfl, hfalse] at this
      exact absurd this (by decide)
    calc tbl.map (fun m => if updateMatch port proto nonce m then
          { m with
            externalHost := some eh
            externalPort := some ep
            expiresAt := some ea
            lifetime := some lt } else m)
        = tbl.map id := List.map_congr_left fun m hm => by
          rw [if_neg (hall m hm)]; rfl
      _ = tbl := List.map_id tbl

end NatPM.MappingsTS

namespace NatPM.PCPGw

/-- C2 (code bug): `hasEpochChanged` classifies a reply exactly as the claim
states — with stored epoch `k`, projected epoch `now − epoch`, a change is
reported iff the projection went backwards or drifted by more than 10
seconds — but on an epoch change the gateway performs no remap: the branch
in `announce()` is the bare comment `// todo remap all ports`, no `remap`
method exists in src/pcp/gateway.ts (although test/pcp.spec.ts calls
`gateway.remap()`), and the epoch bookkeeping merely overwrites
`gatewayEpoch` with the raw reply epoch.  Concretely: with `knownEpoch =
1000`, a reply with epoch field 940 arriving at Unix second 2000 projects to
1060 (a 60 s deviation), `hasEpochChanged` reports `true`, and the announce
handler triggers no remap and just stores 940. -/
theorem c2_epoch_change_no_remap :
    (∀ (k now epoch : Int),
      hasEpochChanged (some k) now epoch =
        (decide (now - epoch < k) || decide ((now - epoch - k).natAbs > 10))) ∧
    (∀ (now epoch : Int), hasEpochChanged none now epoch = false) ∧
    hasEpochChanged (some 1000) 2000 940 = true ∧
    announceProcessEpoch (some 1000) 2000 940 = (some 940, false) ∧
    (∀ (k now epoch : Int),
      (announceProcessEpoch (some k) now epoch).2 = false) := by
  refine ⟨?_, fun now epoch => rfl, by decide, by decide,
    fun k now epoch => rfl⟩
  intro k now epoch
  show (if now - epoch < k then true
    else if (now - epoch - k).natAbs > 10 then true else false) = _
  by_cases h1 : now - epoch < k
  · rw [if_pos h1]
    simp [h1]
  · rw [if_neg h1]
    by_cases h2 : (now - epoch - k).natAbs > 10
    · rw [if_pos h2]
      simp [h2]
    · rw [if_neg h2]
      simp [h1, h2]

end NatPM.PCPGw

namespace NatPM.GwRuntime

/-- C9 counterexample: the claim states that `mapAll` throws
`All attempts to map port N failed` **if and only if** no interface
succeeded.  With no eligible local interface at all, no interface succeeded,
yet the error that propagates is `findLocalAddresses`' own
`Could not detect any local addresses …` — not the claimed message — so the
"only if" direction fails at this concrete input. -/
theorem c9_counterexample :
    mapAll "IPv4" [] 5000 failAttempt =
      .error "Could not detect any local addresses eligible for mapping - please pass a `localAddress` to the map function instead" ∧
    mapAll "IPv4" [] 5000 failAttempt ≠
      .error "All attempts to map port 5000 failed" := by
  refine ⟨rfl, ?_⟩
  intro h
  have h3 : (Except.error "Could not detect any local addresses eligible for mapping - please pass a `localAddress` to the map function instead" : Except String (List PortMappingR)) = Except.error "All attempts to map port 5000 failed" := h
  injection h3 with h4
  exact absurd h4 (by decide)

theorem eligible_iff (family : String) (i : NetworkInterfaceInfo) :
    eligible family i = true ↔
      i.internal = false ∧ i.family = family ∧
        ¬(family = "IPv6" ∧ jsStartsWith i.address "fe80" = true) ∧
        ¬(family = "IPv4" ∧ jsStartsWith i.address "169.254" = true) := by
  unfold eligible
  simp only [Bool.and_eq_true, Bool.not_eq_true', Bool.and_eq_false_iff,
    beq_iff_eq, beq_eq_false_iff_ne, ne_eq, Bool.not_eq_true]
  constructor
  · rintro ⟨⟨⟨hint, hfam⟩, h6⟩, h4⟩
    subst hfam
    refine ⟨hint, rfl, ?_, ?_⟩
    · rintro ⟨hf, hs⟩
      rcases h6 with h | h
      · exact h hf
      · rw [h] at hs
        exact absurd hs (by simp)
    · rintro ⟨hf, hs⟩
      rcases h4 with h | h
      · exact h hf
      · rw [h] at hs
        exact absurd hs (by simp)
  · rintro ⟨hint, hfam, h6, h4⟩
    subst hfam
    refine ⟨⟨⟨hint, rfl⟩, ?_⟩, ?_⟩
    · by_cases hf : i.family = "IPv6"
      · right
        by_cases hs : jsStartsWith i.address "fe80" = true
        · exact absurd ⟨hf, hs⟩ h6
        · simpa using hs
      · left
        exact hf
    · by_cases hf : i.family = "IPv4"
      · right
        by_cases hs : jsStartsWith i.address "169.254" = true
        · exact absurd ⟨hf, hs⟩ h4
        · simpa using hs
      · left
        exact hf

theorem findLocalAddresses_of_ne (family : String)
    (ifaces : List NetworkInterfaceInfo)
    (hne : eligibleAddresses family ifaces ≠ []) :
    findLocalAddresses family ifaces = .ok (eligibleAddresses family ifaces) := by
  unfold findLocalAddresses
  rw [if_neg (fun hc => hne (List.isEmpty_iff.mp hc))]

theorem mapAll_of_ne (family : String) (ifaces : List NetworkInterfaceInfo)
    (port : Nat) (attempt : String → Except String PortMappingR)
    (hne : eligibleAddresses family ifaces ≠ []) :
    mapAll family ifaces port attempt =
      if ((eligibleAddresses family ifaces).filterMap
          (fun h => (attempt h).toOption)).isEmpty then
        .error ("All attempts to map port " ++ toString port ++ " failed")
      else
        .ok ((eligibleAddresses family ifaces).filterMap
          (fun h => (attempt h).toOption)) := by
  unfold mapAll
  rw [findLocalAddresses_of_ne family ifaces hne]

/-- C9 (amended): `mapAll(port, opts)` walks every non-internal local
interface of the gateway\'s family whose textual address does not start with
`fe80` (IPv6 link-local) or `169.254` (IPv4 link-local), attempts
`map(port, host, opts)` on each, yields exactly the successful mappings in
order (per-interface failures do not abort the loop), and — *provided at
least one eligible interface exists* — throws
`All attempts to map port N failed` iff no interface succeeded.  When no
eligible interface exists, the error of `findLocalAddresses`
(`Could not detect any local addresses …`) propagates instead. -/
theorem c9_mapAll_spec :
    ∀ (family : String) (ifaces : List NetworkInterfaceInfo) (port : Nat)
      (attempt : String → Except String PortMappingR),
      (∀ i ∈ ifaces, eligible family i = true ↔
        i.internal = false ∧ i.family = family ∧
          ¬(family = "IPv6" ∧ jsStartsWith i.address "fe80" = true) ∧
          ¬(family = "IPv4" ∧ jsStartsWith i.address "169.254" = true)) ∧
      (eligibleAddresses family ifaces = [] →
        mapAll family ifaces port attempt =
          .error "Could not detect any local addresses eligible for mapping - please pass a `localAddress` to the map function instead") ∧
      (eligibleAddresses family ifaces ≠ [] →
        (mapAll family ifaces port attempt =
            .error ("All attempts to map port " ++ toString port ++ " failed")
          ↔ (eligibleAddresses family ifaces).filterMap
              (fun h => (attempt h).toOption) = [])) ∧
      ((eligibleAddresses family ifaces).filterMap
          (fun h => (attempt h).toOption) ≠ [] →
        mapAll family ifaces port attempt =
          .ok ((eligibleAddresses family ifaces).filterMap
            (fun h => (attempt h).toOption))) := by
  intro family ifaces port attempt
  refine ⟨fun i _ => eligible_iff family i, ?_, ?_, ?_⟩
  · intro hempty
    unfold mapAll findLocalAddresses
    rw [hempty]
    rfl
  · intro hne
    rw [mapAll_of_ne family ifaces port attempt hne]
    by_cases hs : (eligibleAddresses family ifaces).filterMap
        (fun h => (attempt h).toOption) = []
    · rw [if_pos (by rw [hs]; rfl)]
      simp [hs]
    · rw [if_neg (fun hc => hs (List.isEmpty_iff.mp hc))]
      constructor
      · intro h
        exact absurd h (by simp)
      · intro h
        exact absurd h hs
  · intro hsucc
    have hne : eligibleAddresses family ifaces ≠ [] := by
      intro he
      apply hsucc
      rw [he]
      rfl
    rw [mapAll_of_ne family ifaces port attempt hne]
    rw [if_neg (fun hc => hsucc (List.isEmpty_iff.mp hc))]

end NatPM.GwRuntime

namespace NatPM.GwRuntime

/-- C9 witness: at the concrete S7 interface list, `mapAll` yields exactly
the one successful mapping while the other interfaces fail (and with every
attempt failing it throws `All attempts to map port 5000 failed`). -/
theorem c9_mapAll_spec_witness :
    eligibleAddresses "IPv4" s7Ifaces ≠ [] ∧
    mapAll "IPv4" s7Ifaces 5000 s7Attempt =
      .ok ((eligibleAddresses "IPv4" s7Ifaces).filterMap
        (fun h => (s7Attempt h).toOption)) ∧
    (eligibleAddresses "IPv4" s7Ifaces).filterMap
      (fun h => (s7Attempt h).toOption) = [s7Mapping] ∧
    mapAll "IPv4" s7Ifaces 5000 failAttempt =
      .error "All attempts to map port 5000 failed" :=
  ⟨by decide,
   (c9_mapAll_spec "IPv4" s7Ifaces 5000 s7Attempt).2.2.2 (by decide),
   by decide,
   ((c9_mapAll_spec "IPv4" s7Ifaces 5000 failAttempt).2.2.1
     (by decide)).mpr (by decide)⟩

/-- C10: the `externalHost` of the `PortMapping` returned by
`PCPGateway.map` is never taken from the parsed MAP response: it is the
result of the separate `externalIp()` lookup when `isPrivateIp(internalHost)
=== true` and `internalHost` itself otherwise — it does not depend on the
response at all — while the response's assigned external address is written
(only) into the matching internal mapping-table rows by
`updateMappingNonce`. -/
theorem c10_externalHost_not_from_response :
    ∀ (internalHost : String) (isPriv : Option Bool) (extIpLookup : String)
      (r r2 : PCPGw.Parsed),
      (isPriv = some true →
        (mapReturn internalHost isPriv extIpLookup r).externalHost =
          extIpLookup) ∧
      (isPriv ≠ some true →
        (mapReturn internalHost isPriv extIpLookup r).externalHost =
          internalHost) ∧
      (mapReturn internalHost isPriv extIpLookup r).externalHost =
        (mapReturn internalHost isPriv extIpLookup r2).externalHost ∧
      (∀ (mappings : List PCPGw.GMapping) (port : Nat) (proto : String)
          (nonce ea : List Nat) (ep : Nat) (t : Int),
        ∀ m ∈ (PCPGw.updateMappingNonce mappings port proto nonce ea ep t).1,
          m ∈ mappings ∨ m.externalHost = some ea) := by
  intro internalHost isPriv extIpLookup r r2
  refine ⟨fun h => by simp [mapReturn, h], fun h => by simp [mapReturn, h],
    by simp [mapReturn], ?_⟩
  intro mappings port proto nonce ea ep t m hm
  unfold PCPGw.updateMappingNonce at hm
  rw [List.mem_map] at hm
  obtain ⟨m0, hm0, heq⟩ := hm
  by_cases hmatch : PCPGw.gUpdateMatch port proto nonce m0 = true
  · right
    rw [← heq, if_pos hmatch]
  · left
    rw [← heq, if_neg hmatch]
    exact hm0

/-- C10 witness: at concrete inputs, a private internal host yields the
external-IP lookup result and a public internal host yields itself. -/
theorem c10_externalHost_witness :
    (mapReturn "10.0.0.5" (some true) "203.0.113.9"
      ({} : PCPGw.Parsed)).externalHost = "203.0.113.9" ∧
    (mapReturn "203.0.113.7" none "203.0.113.9"
      ({} : PCPGw.Parsed)).externalHost = "203.0.113.7" :=
  ⟨(c10_externalHost_not_from_response "10.0.0.5" (some true) "203.0.113.9"
      {} {}).1 rfl,
   (c10_externalHost_not_from_response "203.0.113.7" none "203.0.113.9"
      {} {}).2.1 (by decide)⟩

end NatPM.GwRuntime

namespace NatPM.PCPGw

theorem jsToInt32_of_small (L : Nat) (h : L < 2147483648) :
    jsToInt32 (L : Int) = (L : Int) := by
  unfold jsToInt32
  omega

/-- C1 (amended): for an IPv4 client `a.b.c.d`, internal port `p`, protocol
TCP, integer lifetime `L < 2^31` and no suggested external address/port, the
MAP request packet is exactly 60 bytes: `02 01 00 00`, `L` big-endian, the
IPv4-mapped client address `::ffff:a.b.c.d`, the 12-byte mapping nonce, then
`06 00 00 00` (protocol TCP followed by three *zero* reserved bytes — the
`writeUInt8(OP_MAP, pos)` of the source is immediately overwritten by
`writeUInt16BE(0, pos)` at the same offset), `p` big-endian twice (the
suggested external port defaults to the internal port), and finally the
16 bytes of `::ffff:0.0.0.0` (ten zero bytes, `ff ff`, four zero bytes) —
not 16 zero bytes, because `parseIP('0.0.0.0', true)` returns the
IPv4-mapped form. -/
theorem c1_map_packet_bytes :
    ∀ (clientAddress protocol : String) (a b c d L p : Nat)
      (nonce : List Nat) (optionsTtl : Option Int),
      parseIPv4 clientAddress = some (a, b, c, d) →
      (protocol = "tcp" ∨ protocol = "TCP") →
      nonce.length = 12 →
      L < 2147483648 →
      p < 65536 →
      pcpRequestMAPPacket optionsTtl p (some (L : Int)) clientAddress protocol
          none none nonce =
        some ([2, 1, 0, 0] ++ be32 L ++
          (List.replicate 10 0 ++ [255, 255, a, b, c, d]) ++ nonce ++
          [6, 0, 0, 0] ++ be16 p ++ be16 p ++
          (List.replicate 10 0 ++ [255, 255, 0, 0, 0, 0])) ∧
      (∀ pkt,
        pcpRequestMAPPacket optionsTtl p (some (L : Int)) clientAddress
            protocol none none nonce = some pkt → pkt.length = 60) := by
  intro clientAddress protocol a b c d L p nonce optionsTtl hpip hproto hlen
    hL hp
  have hne : clientAddress ≠ "0000:0000:0000:0000:0000:0000:0000:0000" := by
    intro he
    have hnone : parseIPv4 "0000:0000:0000:0000:0000:0000:0000:0000" =
        none := by decide
    rw [he, hnone] at hpip
    exact absurd hpip (by simp)
  have httl : pcpTtl (some (L : Int)) optionsTtl = (L : Int) := by
    unfold pcpTtl
    have hj := jsToInt32_of_small L hL
    simp [Option.orElse, hj]
  have hmapped : parseIPMapped clientAddress =
      some (List.replicate 10 0 ++ [255, 255, a, b, c, d]) := by
    unfold parseIPMapped
    rw [if_neg hne, hpip]
    rfl
  have hhdr : newPCPRequestHeader clientAddress ((L : Nat) : Int) 1 =
      some ([2, 1, 0, 0] ++ be32 L ++
        (List.replicate 10 0 ++ [255, 255, a, b, c, d])) := by
    unfold newPCPRequestHeader
    rw [if_neg (by omega), hmapped]
    have h1 : (((0 <<< 7) ||| (1 &&& 0x7F)) &&& 0xFF : Nat) = 1 := by decide
    have h2 : ((L : Int)).toNat = L := Int.toNat_natCast L
    rw [h1, h2]
  have hiv4 : isIPv4 clientAddress = true := by
    unfold isIPv4
    rw [hpip]
    rfl
  have htake : nonce.take 12 ++ List.replicate (12 - nonce.length) 0 =
      nonce := by
    rw [hlen, ← hlen, List.take_length]
    simp
  have hmain : pcpRequestMAPPacket optionsTtl p (some (L : Int)) clientAddress
      protocol none none nonce =
    some ([2, 1, 0, 0] ++ be32 L ++
      (List.replicate 10 0 ++ [255, 255, a, b, c, d]) ++ nonce ++
      [6, 0, 0, 0] ++ be16 p ++ be16 p ++
      (List.replicate 10 0 ++ [255, 255, 0, 0, 0, 0])) := by
    have hzero : parseIPMapped "0.0.0.0" =
        some (List.replicate 10 0 ++ [255, 255, 0, 0, 0, 0]) := by decide
    have hple : ¬ 65536 ≤ p := by omega
    rcases hproto with hpr | hpr <;>
      · subst hpr
        simp only [pcpRequestMAPPacket, httl, hhdr, Option.some_bind]
        simp [hiv4, hzero, htake, hple, List.append_assoc]
  refine ⟨hmain, ?_⟩
  intro pkt hpkt
  rw [hmain] at hpkt
  have h2 := Option.some.inj hpkt
  rw [← h2]
  simp [be32, be16, hlen]

end NatPM.PCPGw

namespace NatPM.PCPGw

/-- C1 witness: for client `192.168.1.10`, internal port 5000, protocol TCP,
lifetime 3600 and an all-zero 12-byte nonce, the packet is produced exactly
as the amended claim states and starts `02 01 00 00 00 00 0E 10`. -/
theorem c1_map_packet_bytes_witness :
    parseIPv4 "192.168.1.10" = some (192, 168, 1, 10) ∧
    pcpRequestMAPPacket none 5000 (some ((3600 : Nat) : Int)) "192.168.1.10"
        "TCP" none none (List.replicate 12 0) =
      some ([2, 1, 0, 0] ++ be32 3600 ++
        (List.replicate 10 0 ++ [255, 255, 192, 168, 1, 10]) ++
        List.replicate 12 0 ++ [6, 0, 0, 0] ++ be16 5000 ++ be16 5000 ++
        (List.replicate 10 0 ++ [255, 255, 0, 0, 0, 0])) ∧
    (pcpRequestMAPPacket none 5000 (some ((3600 : Nat) : Int)) "192.168.1.10"
        "TCP" none none (List.replicate 12 0)).map (fun l => l.take 8) =
      some [2, 1, 0, 0, 0, 0, 14, 16] :=
  ⟨by decide,
   (c1_map_packet_bytes "192.168.1.10" "TCP" 192 168 1 10 3600 5000
      (List.replicate 12 0) none (by decide) (Or.inr rfl) (by decide)
      (by decide) (by decide)).1,
   by decide⟩

/-- C1 counterexample: the claim as stated requires bytes 36-39 of the
packet to be `06 01 00 00` and bytes 44-59 to be sixteen zero bytes; at the
claim's own example input the actual packet has `06 00 00 00` at bytes 36-39
(byte 37 is overwritten with zero) and `::ffff:0.0.0.0` — containing
`ff ff` — at bytes 44-59. -/
theorem c1_claim_counterexample :
    (pcpRequestMAPPacket none 5000 (some ((3600 : Nat) : Int)) "192.168.1.10"
        "TCP" none none (List.replicate 12 0)).map
      (fun l => (l.drop 36).take 4) ≠ some [6, 1, 0, 0] ∧
    (pcpRequestMAPPacket none 5000 (some ((3600 : Nat) : Int)) "192.168.1.10"
        "TCP" none none (List.replicate 12 0)).map (fun l => l.drop 44) ≠
      some (List.replicate 16 0) :=
  ⟨by decide, by decide⟩

end NatPM.PCPGw

namespace NatPM.PCPGw

theorem nextStep_state (s : GState) :
    (nextStep s).1.queue = s.queue ∧ (nextStep s).1.nextId = s.nextId ∧
      (nextStep s).1.mappings = s.mappings := by
  rcases hq : s.queue with _ | ⟨r, t⟩ <;>
    simp only [nextStep, hq, connect]
  · simp
  · repeat' split
    all_goals simp [hq]

theorem nextStep_actions (s : GState) :
    (nextStep s).2 = [] ∨ ∃ r t, s.queue = r :: t ∧
      (nextStep s).2 = [Action.send r.id] ∧ s.listening = true ∧
      s.reqActive = false := by
  rcases hq : s.queue with _ | ⟨r, t⟩ <;>
    simp only [nextStep, hq, connect]
  · simp
  · split
    · split <;> simp
    · rename_i hl
      split
      · simp
      · rename_i hra
        exact Or.inr ⟨r, t, rfl, rfl, by simpa using hl, by simpa using hra⟩

theorem cbStep_state (s : GState) (id : Nat) (out : Except String Parsed) :
    (cbStep s id out).1.queue = s.queue ∧
      (cbStep s id out).1.nextId = s.nextId ∧
      (cbStep s id out).1.mappings = s.mappings := by
  unfold cbStep
  dsimp only
  have h := nextStep_state { s with req := none, reqActive := false }
  exact ⟨h.1, h.2.1, h.2.2⟩

theorem cbStep_actions (s : GState) (id : Nat) (out : Except String Parsed) :
    ∃ B, (cbStep s id out).2 =
      (match out with
        | .error e => Action.reject id e
        | .ok p => Action.resolve id p) :: B ∧
      (B = [] ∨ ∃ r t, s.queue = r :: t ∧ B = [Action.send r.id]) := by
  unfold cbStep
  dsimp only
  refine ⟨(nextStep { s with req := none, reqActive := false }).2, rfl, ?_⟩
  rcases nextStep_actions { s with req := none, reqActive := false } with
    h | ⟨r, t, hq2, hb, _⟩
  · exact Or.inl h
  · exact Or.inr ⟨r, t, hq2, hb⟩

theorem onMessage_rbit (s : GState) (msg : List Nat) (now : Int)
    (head : Req) (rest : List Req) (v b1 : Nat)
    (hq : s.queue = head :: rest) (h0 : readUInt8 msg 0 = some v)
    (h1 : readUInt8 msg 1 = some b1) (hr : (b1 >>> 7) &&& 1 ≠ 1) :
    onMessage s msg now =
      ((cbStep s head.id (.error ("\"R\" must be 1. Got: " ++
          toString ((b1 >>> 7) &&& 1)))).1,
       (cbStep s head.id (.error ("\"R\" must be 1. Got: " ++
          toString ((b1 >>> 7) &&& 1)))).2, true) := by
  simp only [onMessage, hq, h0, h1]
  rw [if_pos hr]

theorem onMessage_mismatch (s : GState) (msg : List Nat) (now : Int)
    (head : Req) (rest : List Req) (v b1 : Nat)
    (hq : s.queue = head :: rest) (h0 : readUInt8 msg 0 = some v)
    (h1 : readUInt8 msg 1 = some b1) (hr : (b1 >>> 7) &&& 1 = 1)
    (hop : b1 &&& 0x7F ≠ head.op) :
    onMessage s msg now = (s, [], true) := by
  simp only [onMessage, hq, h0, h1]
  rw [if_neg (by simp [hr]), if_pos hop]

theorem onMessage_vers (s : GState) (msg : List Nat) (now : Int)
    (head : Req) (rest : List Req) (v b1 : Nat)
    (hq : s.queue = head :: rest) (h0 : readUInt8 msg 0 = some v)
    (h1 : readUInt8 msg 1 = some b1) (hr : (b1 >>> 7) &&& 1 = 1)
    (hop : b1 &&& 0x7F = head.op) (hv : v ≠ 2) :
    onMessage s msg now =
      ((cbStep { s with queue := rest } head.id (.error
          ("\"vers\" must be 2. Got: " ++ toString v))).1,
       (cbStep { s with queue := rest } head.id (.error
          ("\"vers\" must be 2. Got: " ++ toString v))).2, true) := by
  simp only [onMessage, hq, h0, h1]
  rw [if_neg (by simp [hr]), if_neg (by simp [hop]), if_pos hv]

end NatPM.PCPGw

namespace NatPM.PCPGw

/-- C4 counterexample: the claim states the parser rejects any datagram
shorter than 24 bytes, yet this well-formed 12-byte ANNOUNCE reply is fully
accepted — it resolves the pending request (no length check exists in
`onMessage`, and `rinfo` is never inspected, so no source check exists
either). -/
theorem c4_claim_counterexample :
    ([2, 128, 0, 0, 0, 0, 0, 60, 0, 0, 0, 100] : List Nat).length = 12 ∧
    onMessage
        { queue := [⟨0, 0⟩], listening := true, reqActive := true,
          req := some 0 }
        [2, 128, 0, 0, 0, 0, 0, 60, 0, 0, 0, 100] 5 =
      ({ queue := [], listening := true },
       [Action.resolve 0
         { vers := 2, r := 1, op := 0, resultCode := some 0,
           lifetime := some 60, epoch := some 100 }],
       true) :=
  ⟨rfl, by decide⟩

/-- C4 (amended): `onMessage` performs no length and no source validation
(the 12-byte acceptance below; the handler never looks at `rinfo`); a
datagram whose R bit is not 1 is rejected (the head request's promise is
rejected — without the request being dequeued); a datagram with R = 1 and a
matching opcode but version ≠ 2 is rejected; and a datagram whose opcode
does not match the head-of-queue request is silently ignored, leaving the
queue, the in-flight flag and the whole state unchanged with no actions. -/
theorem c4_parser_rules :
    (∀ (s : GState) (msg : List Nat) (now : Int) (head : Req)
        (rest : List Req) (v b1 : Nat),
      s.queue = head :: rest → readUInt8 msg 0 = some v →
      readUInt8 msg 1 = some b1 → (b1 >>> 7) &&& 1 ≠ 1 →
      (onMessage s msg now).2.1.head? = some (Action.reject head.id
        ("\"R\" must be 1. Got: " ++ toString ((b1 >>> 7) &&& 1)))) ∧
    (∀ (s : GState) (msg : List Nat) (now : Int) (head : Req)
        (rest : List Req) (v b1 : Nat),
      s.queue = head :: rest → readUInt8 msg 0 = some v →
      readUInt8 msg 1 = some b1 → (b1 >>> 7) &&& 1 = 1 →
      b1 &&& 0x7F = head.op → v ≠ 2 →
      (onMessage s msg now).2.1.head? = some (Action.reject head.id
        ("\"vers\" must be 2. Got: " ++ toString v))) ∧
    (∀ (s : GState) (msg : List Nat) (now : Int) (head : Req)
        (rest : List Req) (v b1 : Nat),
      s.queue = head :: rest → readUInt8 msg 0 = some v →
      readUInt8 msg 1 = some b1 → (b1 >>> 7) &&& 1 = 1 →
      b1 &&& 0x7F ≠ head.op →
      onMessage s msg now = (s, [], true)) ∧
    onMessage
        { queue := [⟨4, 0⟩], listening := true, reqActive := true,
          req := some 4 }
        [2, 128, 0, 0, 0, 0, 1, 44, 0, 0, 0, 9] 5 =
      ({ queue := [], listening := true },
       [Action.resolve 4
         { vers := 2, r := 1, op := 0, resultCode := some 0,
           lifetime := some 300, epoch := some 9 }],
       true) := by
  refine ⟨?_, ?_, ?_, by decide⟩
  · intro s msg now head rest v b1 hq h0 h1 hr
    rw [onMessage_rbit s msg now head rest v b1 hq h0 h1 hr]
    obtain ⟨B, hB, -⟩ := cbStep_actions s head.id (.error
      ("\"R\" must be 1. Got: " ++ toString ((b1 >>> 7) &&& 1)))
    rw [hB]
    rfl
  · intro s msg now head rest v b1 hq h0 h1 hr hop hv
    rw [onMessage_vers s msg now head rest v b1 hq h0 h1 hr hop hv]
    obtain ⟨B, hB, -⟩ := cbStep_actions { s with queue := rest } head.id
      (.error ("\"vers\" must be 2. Got: " ++ toString v))
    rw [hB]
    rfl
  · intro s msg now head rest v b1 hq h0 h1 hr hop
    exact onMessage_mismatch s msg now head rest v b1 hq h0 h1 hr hop

/-- C4 witness: the rejection and ignore rules evaluated at concrete
datagrams — an R = 0 datagram rejects the pending request, and an R = 1
datagram of the wrong opcode is ignored without touching the state. -/
theorem c4_parser_rules_witness :
    (onMessage
        { queue := [⟨3, 0⟩], listening := true, reqActive := true,
          req := some 3 }
        [2, 0, 0, 0, 0, 0, 0, 60, 0, 0, 0, 100] 9).2.1.head? =
      some (Action.reject 3 ("\"R\" must be 1. Got: " ++ toString 0)) ∧
    onMessage
        { queue := [⟨3, 0⟩], listening := true, reqActive := true,
          req := some 3 }
        [2, 129, 0, 0, 0, 0, 0, 60, 0, 0, 0, 100] 9 =
      ({ queue := [⟨3, 0⟩], listening := true, reqActive := true,
         req := some 3 }, [], true) :=
  ⟨c4_parser_rules.1
      { queue := [⟨3, 0⟩], listening := true, reqActive := true,
        req := some 3 }
      [2, 0, 0, 0, 0, 0, 0, 60, 0, 0, 0, 100] 9 ⟨3, 0⟩ [] 2 0 rfl rfl rfl
      (by decide),
   c4_parser_rules.2.2.1
      { queue := [⟨3, 0⟩], listening := true, reqActive := true,
        req := some 3 }
      [2, 129, 0, 0, 0, 0, 0, 60, 0, 0, 0, 100] 9 ⟨3, 0⟩ [] 2 129 rfl rfl
      rfl (by decide) (by decide)⟩

end NatPM.PCPGw

namespace NatPM.PCPGw

theorem resolve_not_mem_cbStep_error (s : GState) (i : Nat) (e : String)
    (id : Nat) (p : Parsed)
    (h : Action.resolve id p ∈ (cbStep s i (.error e)).2) : False := by
  obtain ⟨B, hB, hBor⟩ := cbStep_actions s i (.error e)
  rw [hB] at h
  rcases List.mem_cons.mp h with h2 | h2
  · exact absurd h2 (by simp)
  · rcases hBor with rfl | ⟨r, t, -, rfl⟩
    · simp at h2
    · simp at h2

theorem resolve_mem_cbStep_ok (s : GState) (i : Nat) (q : Parsed)
    (id : Nat) (p : Parsed)
    (h : Action.resolve id p ∈ (cbStep s i (.ok q)).2) : p = q := by
  obtain ⟨B, hB, hBor⟩ := cbStep_actions s i (.ok q)
  rw [hB] at h
  rcases List.mem_cons.mp h with h2 | h2
  · injection h2 with h3 h4
  · rcases hBor with rfl | ⟨r, t, -, rfl⟩
    · simp at h2
    · simp at h2

theorem updateMappingNonce_mem (mappings : List GMapping)
    (internalPort : Nat) (protocol : String) (nonce ea : List Nat) (ep : Nat)
    (t : Int) (m : GMapping)
    (h : m ∈ (updateMappingNonce mappings internalPort protocol nonce ea ep
      t).1) : m ∈ mappings ∨ m.expiresAt = some t := by
  unfold updateMappingNonce at h
  rw [List.mem_map] at h
  obtain ⟨m0, hm0, heq⟩ := h
  by_cases hmatch : gUpdateMatch internalPort protocol nonce m0 = true
  · right
    rw [← heq, if_pos hmatch]
  · left
    rw [← heq, if_neg hmatch]
    exact hm0

theorem nonceCheckStep_state (s : GState) (hid : Nat) (nonce : List Nat) :
    (nonceCheckStep s hid nonce).1.queue = s.queue ∧
      (nonceCheckStep s hid nonce).1.nextId = s.nextId ∧
      (nonceCheckStep s hid nonce).1.mappings = s.mappings := by
  unfold nonceCheckStep
  split
  · exact cbStep_state s hid _
  · exact ⟨rfl, rfl, rfl⟩

theorem nonceCheckStep_no_resolve (s : GState) (hid : Nat)
    (nonce : List Nat) (id : Nat) (p : Parsed)
    (h : Action.resolve id p ∈ (nonceCheckStep s hid nonce).2) : False := by
  unfold nonceCheckStep at h
  revert h
  split
  · exact fun h => resolve_not_mem_cbStep_error _ _ _ _ _ h
  · simp

theorem ppmr_crash_case (s : GState) (hid : Nat) (nonce : List Nat)
    (parsed : Parsed) (now : Int) (other : Option Parsed)
    (hother : other = none) :
    (((nonceCheckStep s hid nonce).1.queue = s.queue ∧
      (nonceCheckStep s hid nonce).1.nextId = s.nextId) ∧
    (∀ id p, Action.resolve id p ∈ (nonceCheckStep s hid nonce).2 → False) ∧
    (∀ p2, other = some p2 → p2.lifetime = parsed.lifetime) ∧
    (∀ m, m ∈ (nonceCheckStep s hid nonce).1.mappings →
      m ∈ s.mappings ∨
        m.expiresAt = some ((now + (parsed.lifetime.getD 0 : Nat)) * 1000))) := by
  obtain ⟨haq, han, ham⟩ := nonceCheckStep_state s hid nonce
  refine ⟨⟨haq, han⟩, ?_, ?_, ?_⟩
  · exact fun id p h => nonceCheckStep_no_resolve _ _ _ _ _ h
  · intro p2 hp2
    rw [hother] at hp2
    exact absurd hp2 (by simp)
  · intro m hm
    rw [ham] at hm
    exact Or.inl hm

theorem ppmr_spec (s : GState) (hid : Nat) (msg : List Nat) (now : Int)
    (parsed : Parsed) :
    ((processPCPMapResponse s hid msg now parsed).1.queue = s.queue ∧
     (processPCPMapResponse s hid msg now parsed).1.nextId = s.nextId) ∧
    (∀ id p, Action.resolve id p ∈
      (processPCPMapResponse s hid msg now parsed).2.1 → False) ∧
    (∀ p2, (processPCPMapResponse s hid msg now parsed).2.2 = some p2 →
      p2.lifetime = parsed.lifetime) ∧
    (∀ m, m ∈ (processPCPMapResponse s hid msg now parsed).1.mappings →
      m ∈ s.mappings ∨
        m.expiresAt = some ((now + (parsed.lifetime.getD 0 : Nat)) * 1000)) := by
  obtain ⟨haq, han, ham⟩ :=
    nonceCheckStep_state s hid (bufCopyRange msg 24 36 12)
  rcases h36 : readUInt8 msg 36 with _ | pb
  · simp only [processPCPMapResponse, h36]
    exact ppmr_crash_case s hid _ parsed now none rfl
  · simp only [processPCPMapResponse, h36]
    by_cases hpb : pb = 6 ∨ pb = 17
    · rw [if_pos hpb]
      rcases h40 : readUInt16BE msg 40 with _ | ip
      · simp only [h40]
        exact ppmr_crash_case s hid _ parsed now none rfl
      · simp only [h40]
        rcases h42 : readUInt16BE msg 42 with _ | ep
        · simp only [h42]
          exact ppmr_crash_case s hid _ parsed now none rfl
        · simp only [h42]
          split
          · split
            · refine ⟨⟨?_, ?_⟩, ?_, ?_, ?_⟩
              · rw [(cbStep_state _ _ _).1]
                exact haq
              · rw [(cbStep_state _ _ _).2.1]
                exact han
              · intro id p h
                rcases List.mem_append.mp h with h2 | h2
                · exact nonceCheckStep_no_resolve _ _ _ _ _ h2
                · exact resolve_not_mem_cbStep_error _ _ _ _ _ h2
              · intro p2 hp2
                injection hp2 with hp2
                rw [← hp2]
              · intro m hm
                rw [(cbStep_state _ _ _).2.2] at hm
                rcases updateMappingNonce_mem _ _ _ _ _ _ _ _ hm with h2 | h2
                · rw [ham] at h2
                  exact Or.inl h2
                · exact Or.inr h2
            · refine ⟨⟨haq, han⟩, ?_, ?_, ?_⟩
              · intro id p h
                exact nonceCheckStep_no_resolve _ _ _ _ _ h
              · intro p2 hp2
                injection hp2 with hp2
                rw [← hp2]
              · intro m hm
                rcases updateMappingNonce_mem _ _ _ _ _ _ _ _ hm with h2 | h2
                · rw [ham] at h2
                  exact Or.inl h2
                · exact Or.inr h2
          · split
            · refine ⟨⟨?_, ?_⟩, ?_, ?_, ?_⟩
              · rw [(cbStep_state _ _ _).1]
                exact haq
              · rw [(cbStep_state _ _ _).2.1]
                exact han
              · intro id p h
                rcases List.mem_append.mp h with h2 | h2
                · exact nonceCheckStep_no_resolve _ _ _ _ _ h2
                · exact resolve_not_mem_cbStep_error _ _ _ _ _ h2
              · intro p2 hp2
                injection hp2 with hp2
                rw [← hp2]
              · intro m hm
                rw [(cbStep_state _ _ _).2.2] at hm
                rcases updateMappingNonce_mem _ _ _ _ _ _ _ _ hm with h2 | h2
                · rw [ham] at h2
                  exact Or.inl h2
                · exact Or.inr h2
            · refine ⟨⟨haq, han⟩, ?_, ?_, ?_⟩
              · intro id p h
                exact nonceCheckStep_no_resolve _ _ _ _ _ h
              · intro p2 hp2
                injection hp2 with hp2
                rw [← hp2]
              · intro m hm
                rcases updateMappingNonce_mem _ _ _ _ _ _ _ _ hm with h2 | h2
                · rw [ham] at h2
                  exact Or.inl h2
                · exact Or.inr h2
    · rw [if_neg hpb]
      refine ⟨⟨?_, ?_⟩, ?_, ?_, ?_⟩
      · rw [(cbStep_state _ _ _).1]
        exact haq
      · rw [(cbStep_state _ _ _).2.1]
        exact han
      · intro id p h
        rcases List.mem_append.mp h with h2 | h2
        · exact nonceCheckStep_no_resolve _ _ _ _ _ h2
        · exact resolve_not_mem_cbStep_error _ _ _ _ _ h2
      · intro p2 hp2
        injection hp2 with hp2
        rw [← hp2]
      · intro m hm
        rw [(cbStep_state _ _ _).2.2] at hm
        rw [ham] at hm
        exact Or.inl hm



theorem onMessage_clamp_spec (s : GState) (msg : List Nat) (now : Int) :
    (∀ id p, Action.resolve id p ∈ (onMessage s msg now).2.1 →
      ∃ raw, readUInt32BE msg 4 = some raw ∧
        p.lifetime = some (if raw > 24 * 60 * 60 then 24 * 60 * 60
          else raw)) ∧
    (∀ m, m ∈ (onMessage s msg now).1.mappings → m ∉ s.mappings →
      ∃ raw, readUInt32BE msg 4 = some raw ∧
        m.expiresAt = some ((now +
          ((if raw > 24 * 60 * 60 then 24 * 60 * 60 else raw) : Nat)) *
            1000)) := by
  rcases hq : s.queue with _ | ⟨head, rest⟩ <;> simp only [onMessage, hq]
  · refine ⟨?_, ?_⟩
    · intro id p h
      simp at h
    · intro m hm hnot
      exact absurd hm hnot
  · rcases h0 : readUInt8 msg 0 with _ | v <;> simp only [h0]
    · refine ⟨?_, ?_⟩
      · intro id p h
        simp at h
      · intro m hm hnot
        exact absurd hm hnot
    · rcases h1 : readUInt8 msg 1 with _ | b1 <;> simp only [h1]
      · refine ⟨?_, ?_⟩
        · intro id p h
          simp at h
        · intro m hm hnot
          exact absurd hm hnot
      · by_cases hr : (b1 >>> 7) &&& 1 ≠ 1
        · rw [if_pos hr]
          refine ⟨?_, ?_⟩
          · intro id p h
            exact absurd h (fun h2 =>
              resolve_not_mem_cbStep_error _ _ _ _ _ h2)
          · intro m hm hnot
            rw [(cbStep_state _ _ _).2.2] at hm
            exact absurd hm hnot
        · rw [if_neg hr]
          by_cases hop : b1 &&& 0x7F ≠ head.op
          · rw [if_pos hop]
            refine ⟨?_, ?_⟩
            · intro id p h
              simp at h
            · intro m hm hnot
              exact absurd hm hnot
          · rw [if_neg hop]
            by_cases hv : v ≠ 2
            · rw [if_pos hv]
              refine ⟨?_, ?_⟩
              · intro id p h
                exact absurd h (fun h2 =>
                  resolve_not_mem_cbStep_error _ _ _ _ _ h2)
              · intro m hm hnot
                rw [(cbStep_state _ _ _).2.2] at hm
                exact absurd hm hnot
            · rw [if_neg hv]
              rcases h3 : readUInt8 msg 3 with _ | rc <;> simp only [h3]
              · refine ⟨?_, ?_⟩
                · intro id p h
                  simp at h
                · intro m hm hnot
                  exact absurd hm hnot
              · by_cases hrc13 : rc > 13
                · rw [if_pos hrc13]
                  refine ⟨?_, ?_⟩
                  · intro id p h
                    exact absurd h (fun h2 =>
                      resolve_not_mem_cbStep_error _ _ _ _ _ h2)
                  · intro m hm hnot
                    rw [(cbStep_state _ _ _).2.2] at hm
                    exact absurd hm hnot
                · rw [if_neg hrc13]
                  by_cases hrc0 : rc ≠ 0
                  · rw [if_pos hrc0]
                    refine ⟨?_, ?_⟩
                    · intro id p h
                      exact absurd h (fun h2 =>
                        resolve_not_mem_cbStep_error _ _ _ _ _ h2)
                    · intro m hm hnot
                      rw [(cbStep_state _ _ _).2.2] at hm
                      exact absurd hm hnot
                  · rw [if_neg hrc0]
                    rcases h4 : readUInt32BE msg 4 with _ | raw <;>
                      simp only [h4]
                    · refine ⟨?_, ?_⟩
                      · intro id p h
                        simp at h
                      · intro m hm hnot
                        exact absurd hm hnot
                    · rcases h8 : readUInt32BE msg 8 with _ | ep8 <;>
                        simp only [h8]
                      · refine ⟨?_, ?_⟩
                        · intro id p h
                          simp at h
                        · intro m hm hnot
                          exact absurd hm hnot
                      · rcases hopv : head.op with _ | nop
                        · simp only [hopv]
                          refine ⟨?_, ?_⟩
                          · intro id p h
                            have hp := resolve_mem_cbStep_ok _ _ _ _ _ h
                            exact ⟨raw, rfl, by rw [hp]⟩
                          · intro m hm hnot
                            rw [(cbStep_state _ _ _).2.2] at hm
                            exact absurd hm hnot
                        · rcases nop with _ | o
                          · simp only [hopv]
                            have hps := ppmr_spec { s with queue := rest }
                              head.id msg now
                              { vers := v, r := 1, op := b1 &&& 0x7F,
                                resultCode := some rc,
                                lifetime := some (if raw > 24 * 60 * 60
                                  then 24 * 60 * 60 else raw),
                                epoch := some ep8 }
                            rcases hpr : (processPCPMapResponse
                                { s with queue := rest } head.id msg now
                                { vers := v, r := 1, op := b1 &&& 0x7F,
                                  resultCode := some rc,
                                  lifetime := some (if raw > 24 * 60 * 60
                                    then 24 * 60 * 60 else raw),
                                  epoch := some ep8 }).2.2 with _ | p2 <;>
                              simp only [hpr]
                            · refine ⟨?_, ?_⟩
                              · intro id p h
                                exact absurd h (fun h2 =>
                                  hps.2.1 id p h2)
                              · intro m hm hnot
                                rcases hps.2.2.2 m hm with h2 | h2
                                · exact absurd h2 hnot
                                · exact ⟨raw, rfl, h2⟩
                            · refine ⟨?_, ?_⟩
                              · intro id p h
                                rcases List.mem_append.mp h with h2 | h2
                                · exact absurd h2 (fun h3 =>
                                    hps.2.1 id p h3)
                                · have hp := resolve_mem_cbStep_ok _ _ _ _ _
                                    h2
                                  have hl := hps.2.2.1 p2 hpr
                                  exact ⟨raw, rfl, by rw [hp, hl]⟩
                              · intro m hm hnot
                                rw [(cbStep_state _ _ _).2.2] at hm
                                rcases hps.2.2.2 m hm with h2 | h2
                                · exact absurd h2 hnot
                                · exact ⟨raw, rfl, h2⟩
                          · simp only [hopv]
                            refine ⟨?_, ?_⟩
                            · intro id p h
                              exact absurd h (fun h2 =>
                                resolve_not_mem_cbStep_error _ _ _ _ _ h2)
                            · intro m hm hnot
                              rw [(cbStep_state _ _ _).2.2] at hm
                              exact absurd hm hnot

/-- C7: whenever the PCP response parser resolves a request with a parsed
object, the recorded lifetime is the 32-bit granted-lifetime field of the
datagram clamped to 86400 s, so a granted lifetime above 86400 is recorded
as 86400; and every mapping row newly written by the response carries
`expiresAt = (now + clamped lifetime) * 1000`, so the stored lifetime is
clamped as well. -/
theorem c7_lifetime_clamp :
    (∀ (s : GState) (msg : List Nat) (now : Int) (id : Nat) (p : Parsed)
        (raw : Nat),
      readUInt32BE msg 4 = some raw → raw > 86400 →
      Action.resolve id p ∈ (onMessage s msg now).2.1 →
      p.lifetime = some 86400) ∧
    (∀ (s : GState) (msg : List Nat) (now : Int) (m : GMapping) (raw : Nat),
      readUInt32BE msg 4 = some raw → raw > 86400 →
      m ∈ (onMessage s msg now).1.mappings → m ∉ s.mappings →
      m.expiresAt = some ((now + 86400) * 1000)) := by
  constructor
  · intro s msg now id p raw h4 hbig hmem
    obtain ⟨raw2, h42, hl⟩ := (onMessage_clamp_spec s msg now).1 id p hmem
    rw [h4] at h42
    injection h42 with h42
    subst h42
    rw [hl, if_pos (by omega : raw > 24 * 60 * 60)]
  · intro s msg now m raw h4 hbig hmem hnot
    obtain ⟨raw2, h42, he⟩ := (onMessage_clamp_spec s msg now).2 m hmem hnot
    rw [h4] at h42
    injection h42 with h42
    subst h42
    rw [he, if_pos (by omega : raw > 24 * 60 * 60)]
    norm_num

/-- C7 witness: the S5 scenario — a 60-byte successful MAP response
declaring lifetime 100000 s resolves with recorded lifetime 86400 and writes
`expiresAt = (now + 86400) * 1000` on the stored row. -/
theorem c7_lifetime_clamp_witness :
    readUInt32BE c7Msg 4 = some 100000 ∧
    Action.resolve 0 c7ParsedRes ∈ (onMessage c7State c7Msg 1000).2.1 ∧
    c7ParsedRes.lifetime = some 86400 ∧
    c7UpdatedMapping ∈ (onMessage c7State c7Msg 1000).1.mappings ∧
    c7UpdatedMapping ∉ c7State.mappings ∧
    c7UpdatedMapping.expiresAt = some ((1000 + 86400) * 1000) :=
  ⟨by decide, by decide,
   c7_lifetime_clamp.1 c7State c7Msg 1000 0 c7ParsedRes 100000 (by decide)
     (by decide) (by decide),
   by decide, by decide,
   c7_lifetime_clamp.2 c7State c7Msg 1000 c7UpdatedMapping 100000 (by decide)
     (by decide) (by decide) (by decide)⟩

end NatPM.PCPGw

namespace NatPM.PCPGw

theorem settledIn_append_right (tr B : List Action) (i : Nat)
    (h : settledIn tr i) : settledIn (tr ++ B) i := by
  obtain ⟨a, ha, hs⟩ := h
  exact ⟨a, List.mem_append_left B ha, hs⟩

theorem settledIn_append_left (tr B : List Action) (i : Nat)
    (h : settledIn B i) : settledIn (tr ++ B) i := by
  obtain ⟨a, ha, hs⟩ := h
  exact ⟨a, List.mem_append_right tr ha, hs⟩

theorem blockOk_nil (tr : List Action) : BlockOk tr [] := by
  intro p j hp
  simp at hp

theorem blockOk_append (tr A B : List Action) (hA : BlockOk tr A)
    (hB : BlockOk (tr ++ A) B) : BlockOk tr (A ++ B) := by
  intro p j hp i hij
  by_cases hlt : p < A.length
  · rw [List.get?_append hlt] at hp
    rw [List.take_append_of_le_length (le_of_lt hlt)]
    exact hA p j hp i hij
  · push_neg at hlt
    rw [List.get?_append_right hlt] at hp
    have hres := hB (p - A.length) j hp i hij
    have htk : (A ++ B).take p = A ++ B.take (p - A.length) := by
      have hpe : p = A.length + (p - A.length) := by omega
      conv_lhs => rw [hpe]
      rw [List.take_append]
    rw [htk, ← List.append_assoc]
    exact hres

theorem fifo_nil : fifoTrace [] := by
  intro p j hp
  simp at hp

theorem fifo_extend (tr B : List Action) (h1 : fifoTrace tr)
    (h2 : BlockOk tr B) : fifoTrace (tr ++ B) := by
  intro p j hp i hij
  by_cases hlt : p < tr.length
  · rw [List.get?_append hlt] at hp
    obtain ⟨q, hq, a, ha, hs⟩ := h1 p j hp i hij
    have hqlt : q < tr.length := lt_trans hq hlt
    exact ⟨q, hq, a, by rw [List.get?_append hqlt]; exact ha, hs⟩
  · push_neg at hlt
    rw [List.get?_append_right hlt] at hp
    obtain ⟨a, hamem, hs⟩ := h2 (p - tr.length) j hp i hij
    obtain ⟨q, hq⟩ := List.mem_iff_get?.mp hamem
    obtain ⟨hqlen, -⟩ := List.get?_eq_some.mp hq
    rw [List.length_append, List.length_take] at hqlen
    by_cases hqtr : q < tr.length
    · rw [List.get?_append hqtr] at hq
      refine ⟨q, by omega, a, ?_, hs⟩
      rw [List.get?_append hqtr]
      exact hq
    · push_neg at hqtr
      rw [List.get?_append_right hqtr] at hq
      have hqb : q - tr.length < min (p - tr.length) B.length := by omega
      rw [List.get?_take (by omega : q - tr.length < p - tr.length)] at hq
      refine ⟨q, by omega, a, ?_, hs⟩
      rw [List.get?_append_right hqtr]
      exact hq

theorem consecFrom_append (lo : Nat) :
    ∀ n, consecFrom lo (n + 1) = consecFrom lo n ++ [lo + n] := by
  intro n
  induction n generalizing lo with
  | zero => simp [consecFrom]
  | succ n2 ih =>
    show lo :: consecFrom (lo + 1) (n2 + 1) = _
    rw [ih (lo + 1)]
    have he : lo + 1 + n2 = lo + (n2 + 1) := by omega
    rw [he]
    rfl

theorem consecFrom_mem (i : Nat) :
    ∀ (n lo : Nat), i ∈ consecFrom lo n ↔ lo ≤ i ∧ i < lo + n := by
  intro n
  induction n with
  | zero => intro lo; simp [consecFrom]
  | succ n2 ih =>
    intro lo
    show i ∈ lo :: consecFrom (lo + 1) n2 ↔ _
    rw [List.mem_cons, ih (lo + 1)]
    omega

theorem cons_consecFrom {x : Nat} {xs : List Nat} {lo n : Nat}
    (h : x :: xs = consecFrom lo n) :
    x = lo ∧ ∃ n2, n = n2 + 1 ∧ xs = consecFrom (lo + 1) n2 := by
  cases n with
  | zero => simp [consecFrom] at h
  | succ n2 =>
    rw [show consecFrom lo (n2 + 1) = lo :: consecFrom (lo + 1) n2 from
      rfl] at h
    injection h with h1 h2
    exact ⟨h1, n2, rfl, h2⟩

theorem isSettle_of_settler (id : Nat) (out : Except String Parsed) :
    isSettle id (match out with
      | .error e => Action.reject id e
      | .ok p => Action.resolve id p) = true := by
  cases out <;> simp [isSettle]

theorem qIds_eq_of_queue {s1 s2 : GState} (h : s1.queue = s2.queue) :
    qIds s1 = qIds s2 := by
  simp [qIds, h]

theorem nextStep_blockOk (s : GState) (tr : List Action) (lo : Nat)
    (hq : qIds s = consecFrom lo (s.nextId - lo))
    (hset : ∀ i < lo, settledIn tr i) :
    BlockOk tr (nextStep s).2 := by
  rcases hqe : s.queue with _ | ⟨r, t⟩
  · simp only [nextStep, hqe]
    exact blockOk_nil tr
  · have hid : r.id = lo := by
      have h2 : qIds s = r.id :: t.map Req.id := by simp [qIds, hqe]
      rw [h2] at hq
      exact (cons_consecFrom hq).1
    simp only [nextStep, hqe]
    split
    · split <;> exact blockOk_nil tr
    · split
      · exact blockOk_nil tr
      · intro p j hp i hij
        cases p with
        | zero =>
          have hj : j = r.id := by
            have h3 : Action.send r.id = Action.send j := by
              simpa using hp
            injection h3 with h4
            omega
          rw [List.take_zero, List.append_nil]
          exact hset i (by omega)
        | succ p2 => simp at hp

theorem cb_block_aux (s : GState) (tr : List Action) (lo id : Nat)
    (act : Action) (hact : isSettle id act = true)
    (hns : ∀ j, act ≠ Action.send j)
    (hq : qIds s = consecFrom lo (s.nextId - lo))
    (hset : ∀ i < lo, settledIn tr i ∨ i = id) :
    BlockOk tr (act :: (nextStep s).2) ∧
    ∀ i < lo, settledIn (tr ++ act :: (nextStep s).2) i := by
  constructor
  · intro p j hp i hij
    cases p with
    | zero =>
      have h3 : act = Action.send j := by simpa using hp
      exact absurd h3 (hns j)
    | succ p2 =>
      have hp2 : (nextStep s).2.get? p2 = some (Action.send j) := by
        simpa using hp
      rcases nextStep_actions s with hBe | ⟨r, t, hqe, hBe, -, -⟩
      · rw [hBe] at hp2
        simp at hp2
      · rw [hBe] at hp2
        cases p2 with
        | zero =>
          have hj : j = r.id := by
            have h3 : Action.send r.id = Action.send j := by simpa using hp2
            injection h3 with h4
            omega
          have hid : r.id = lo := by
            have h2 : qIds s = r.id :: t.map Req.id := by simp [qIds, hqe]
            rw [h2] at hq
            exact (cons_consecFrom hq).1
          have hilo : i < lo := by omega
          rcases hset i hilo with h | h
          · exact settledIn_append_right tr _ i h
          · refine settledIn_append_left tr _ i ⟨act, ?_, ?_⟩
            · simp
            · rw [h]
              exact hact
        | succ p3 => simp at hp2
  · intro i hi
    rcases hset i hi with h | h
    · exact settledIn_append_right tr _ i h
    · refine settledIn_append_left tr _ i ⟨act, List.mem_cons_self _ _, ?_⟩
      rw [h]
      exact hact

theorem cbStep_block (s : GState) (tr : List Action) (lo id : Nat)
    (out : Except String Parsed)
    (hq : qIds s = consecFrom lo (s.nextId - lo))
    (hset : ∀ i < lo, settledIn tr i ∨ i = id) :
    BlockOk tr (cbStep s id out).2 ∧
    (cbStep s id out).1.queue = s.queue ∧
    (cbStep s id out).1.nextId = s.nextId ∧
    ∀ i < lo, settledIn (tr ++ (cbStep s id out).2) i := by
  have hq2 : qIds { s with req := none, reqActive := false } =
      consecFrom lo ({ s with req := none, reqActive := false }.nextId - lo) :=
    hq
  cases out with
  | error e =>
    have h := cb_block_aux { s with req := none, reqActive := false } tr lo id
      (Action.reject id e) (by simp [isSettle]) (by intro j h2; cases h2)
      hq2 hset
    exact ⟨h.1, (cbStep_state s id _).1, (cbStep_state s id _).2.1, h.2⟩
  | ok p =>
    have h := cb_block_aux { s with req := none, reqActive := false } tr lo id
      (Action.resolve id p) (by simp [isSettle]) (by intro j h2; cases h2)
      hq2 hset
    exact ⟨h.1, (cbStep_state s id _).1, (cbStep_state s id _).2.1, h.2⟩

theorem nonceCheck_block (s : GState) (tr : List Action) (lo id : Nat)
    (nonce : List Nat)
    (hq : qIds s = consecFrom lo (s.nextId - lo))
    (hset : ∀ i < lo, settledIn tr i ∨ i = id) :
    BlockOk tr (nonceCheckStep s id nonce).2 ∧
    (nonceCheckStep s id nonce).1.queue = s.queue ∧
    (nonceCheckStep s id nonce).1.nextId = s.nextId ∧
    ∀ i < lo, settledIn (tr ++ (nonceCheckStep s id nonce).2) i ∨ i = id := by
  unfold nonceCheckStep
  split
  · obtain ⟨h1, h2, h3, h4⟩ := cbStep_block s tr lo id
      (.error "Nonce not found in mappings") hq hset
    exact ⟨h1, h2, h3, fun i hi => Or.inl (h4 i hi)⟩
  · refine ⟨blockOk_nil tr, rfl, rfl, ?_⟩
    intro i hi
    rcases hset i hi with h | h
    · exact Or.inl (settledIn_append_right tr _ i h)
    · exact Or.inr h

theorem cbStep_block2 (s2 s0 : GState) (tr : List Action) (lo id : Nat)
    (out : Except String Parsed)
    (hqe : s2.queue = s0.queue) (hne : s2.nextId = s0.nextId)
    (hq : qIds s0 = consecFrom lo (s0.nextId - lo))
    (hset : ∀ i < lo, settledIn tr i ∨ i = id) :
    BlockOk tr (cbStep s2 id out).2 ∧
    (cbStep s2 id out).1.queue = s0.queue ∧
    (cbStep s2 id out).1.nextId = s0.nextId ∧
    ∀ i < lo, settledIn (tr ++ (cbStep s2 id out).2) i := by
  have hq2 : qIds s2 = consecFrom lo (s2.nextId - lo) := by
    rw [qIds_eq_of_queue hqe, hne]
    exact hq
  obtain ⟨h1, h2, h3, h4⟩ := cbStep_block s2 tr lo id out hq2 hset
  exact ⟨h1, by rw [h2, hqe], by rw [h3, hne], h4⟩

theorem ppmr_tail_block (s0 a1 : GState) (tr A : List Action) (lo id : Nat)
    (out : Except String Parsed)
    (hA : BlockOk tr A)
    (hqe : a1.queue = s0.queue) (hne : a1.nextId = s0.nextId)
    (hq : qIds s0 = consecFrom lo (s0.nextId - lo))
    (hset : ∀ i < lo, settledIn (tr ++ A) i ∨ i = id) :
    BlockOk tr (A ++ (cbStep a1 id out).2) ∧
    (cbStep a1 id out).1.queue = s0.queue ∧
    (cbStep a1 id out).1.nextId = s0.nextId ∧
    ∀ i < lo, settledIn (tr ++ (A ++ (cbStep a1 id out).2)) i ∨ i = id := by
  obtain ⟨h1, h2, h3, h4⟩ :=
    cbStep_block2 a1 s0 (tr ++ A) lo id out hqe hne hq hset
  refine ⟨blockOk_append tr A _ hA h1, h2, h3, ?_⟩
  intro i hi
  refine Or.inl ?_
  rw [← List.append_assoc]
  exact h4 i hi

theorem ppmr_block (s : GState) (tr : List Action) (lo id : Nat)
    (msg : List Nat) (now : Int) (parsed : Parsed)
    (hq : qIds s = consecFrom lo (s.nextId - lo))
    (hset : ∀ i < lo, settledIn tr i ∨ i = id) :
    BlockOk tr (processPCPMapResponse s id msg now parsed).2.1 ∧
    (processPCPMapResponse s id msg now parsed).1.queue = s.queue ∧
    (processPCPMapResponse s id msg now parsed).1.nextId = s.nextId ∧
    ∀ i < lo,
      settledIn (tr ++ (processPCPMapResponse s id msg now parsed).2.1) i ∨
        i = id := by
  obtain ⟨ha1, haq, han, ha4⟩ :=
    nonceCheck_block s tr lo id (bufCopyRange msg 24 36 12) hq hset
  rcases h36 : readUInt8 msg 36 with _ | pb
  · simp only [processPCPMapResponse, h36]
    exact ⟨ha1, haq, han, ha4⟩
  · simp only [processPCPMapResponse, h36]
    by_cases hpb : pb = 6 ∨ pb = 17
    · rw [if_pos hpb]
      rcases h40 : readUInt16BE msg 40 with _ | ip
      · simp only [h40]
        exact ⟨ha1, haq, han, ha4⟩
      · simp only [h40]
        rcases h42 : readUInt16BE msg 42 with _ | ep
        · simp only [h42]
          exact ⟨ha1, haq, han, ha4⟩
        · simp only [h42]
          split
          · split
            · refine ppmr_tail_block s _ tr _ lo id _ ha1 ?_ ?_ hq ?_
              · exact haq
              · exact han
              · exact ha4
            · exact ⟨ha1, haq, han, ha4⟩
          · split
            · refine ppmr_tail_block s _ tr _ lo id _ ha1 ?_ ?_ hq ?_
              · exact haq
              · exact han
              · exact ha4
            · exact ⟨ha1, haq, han, ha4⟩
    · rw [if_neg hpb]
      refine ppmr_tail_block s _ tr _ lo id _ ha1 ?_ ?_ hq ?_
      · exact haq
      · exact han
      · exact ha4

theorem inv_of_parts {s0 s1 : GState} {tr2 : List Action} {lo : Nat}
    (hqe : s1.queue = s0.queue) (hne : s1.nextId = s0.nextId)
    (hlo : lo ≤ s0.nextId)
    (hq : qIds s0 = consecFrom lo (s0.nextId - lo))
    (hset : ∀ i < lo, settledIn tr2 i) : Inv s1 tr2 :=
  ⟨lo, by rw [hne]; exact hlo,
    by rw [qIds_eq_of_queue hqe, hne]; exact hq, hset⟩

theorem onMessage_block (s : GState) (tr : List Action) (msg : List Nat)
    (now : Int) (hInv : Inv s tr) :
    BlockOk tr (onMessage s msg now).2.1 ∧
    ((onMessage s msg now).2.2 = true →
      Inv (onMessage s msg now).1 (tr ++ (onMessage s msg now).2.1)) := by
  obtain ⟨lo, hlo, hq, hset⟩ := hInv
  rcases hqc : s.queue with _ | ⟨head, rest⟩ <;> simp only [onMessage, hqc]
  · refine ⟨blockOk_nil tr, fun _ => ?_⟩
    rw [List.append_nil]
    exact ⟨lo, hlo, hq, hset⟩
  · rcases h0 : readUInt8 msg 0 with _ | v <;> simp only [h0]
    · exact ⟨blockOk_nil tr, fun h => by simp at h⟩
    · rcases h1 : readUInt8 msg 1 with _ | b1 <;> simp only [h1]
      · exact ⟨blockOk_nil tr, fun h => by simp at h⟩
      · have hq0 : qIds s = head.id :: rest.map Req.id := by
          simp [qIds, hqc]
        have hqcons : head.id :: rest.map Req.id =
            consecFrom lo (s.nextId - lo) := by
          rw [← hq0]
          exact hq
        obtain ⟨hidlo, n2, hn2, hrest⟩ := cons_consecFrom hqcons
        have hlolt : lo < s.nextId := by omega
        have hset1 : ∀ i < lo, settledIn tr i ∨ i = head.id :=
          fun i hi => Or.inl (hset i hi)
        have hq1 : qIds { s with queue := rest } =
            consecFrom (lo + 1)
              (({ s with queue := rest } : GState).nextId - (lo + 1)) := by
          show rest.map Req.id = consecFrom (lo + 1) (s.nextId - (lo + 1))
          rw [hrest]
          congr 1
          omega
        have hset2 : ∀ i < lo + 1, settledIn tr i ∨ i = head.id := by
          intro i hi
          by_cases hil : i < lo
          · exact Or.inl (hset i hil)
          · have : i = lo := by omega
            rw [this, ← hidlo]
            exact Or.inr rfl
        by_cases hr : (b1 >>> 7) &&& 1 ≠ 1
        · rw [if_pos hr]
          obtain ⟨h1, h2, h3, h4⟩ := cbStep_block s tr lo head.id
            (.error ("\"R\" must be 1. Got: " ++
              toString ((b1 >>> 7) &&& 1))) hq hset1
          exact ⟨h1, fun _ => inv_of_parts h2 h3 hlo hq h4⟩
        · rw [if_neg hr]
          by_cases hop : b1 &&& 0x7F ≠ head.op
          · rw [if_pos hop]
            refine ⟨blockOk_nil tr, fun _ => ?_⟩
            rw [List.append_nil]
            exact ⟨lo, hlo, hq, hset⟩
          · rw [if_neg hop]
            by_cases hv : v ≠ 2
            · rw [if_pos hv]
              obtain ⟨h1, h2, h3, h4⟩ := cbStep_block
                { s with queue := rest } tr (lo + 1) head.id
                (.error ("\"vers\" must be 2. Got: " ++ toString v))
                hq1 hset2
              exact ⟨h1, fun _ => inv_of_parts h2 h3 hlolt hq1 h4⟩
            · rw [if_neg hv]
              rcases h3r : readUInt8 msg 3 with _ | rc <;> simp only [h3r]
              · exact ⟨blockOk_nil tr, fun h => by simp at h⟩
              · by_cases hrc13 : rc > 13
                · rw [if_pos hrc13]
                  obtain ⟨h1, h2, h3, h4⟩ := cbStep_block
                    { s with queue := rest } tr (lo + 1) head.id
                    (.error "Unsupported result code") hq1 hset2
                  exact ⟨h1, fun _ => inv_of_parts h2 h3 hlolt hq1 h4⟩
                · rw [if_neg hrc13]
                  by_cases hrc0 : rc ≠ 0
                  · rw [if_pos hrc0]
                    obtain ⟨h1, h2, h3, h4⟩ := cbStep_block
                      { s with queue := rest } tr (lo + 1) head.id
                      (.error (resultMessage rc)) hq1 hset2
                    exact ⟨h1, fun _ => inv_of_parts h2 h3 hlolt hq1 h4⟩
                  · rw [if_neg hrc0]
                    rcases h4r : readUInt32BE msg 4 with _ | raw <;>
                      simp only [h4r]
                    · exact ⟨blockOk_nil tr, fun h => by simp at h⟩
                    · rcases h8 : readUInt32BE msg 8 with _ | ep8 <;>
                        simp only [h8]
                      · exact ⟨blockOk_nil tr, fun h => by simp at h⟩
                      · rcases hopv : head.op with _ | nop
                        · simp only [hopv]
                          obtain ⟨h1, h2, h3, h4⟩ := cbStep_block
                            { s with queue := rest } tr (lo + 1) head.id
                            (.ok
                              { vers := v, r := 1, op := b1 &&& 0x7F,
                                resultCode := some rc,
                                lifetime := some (if raw > 24 * 60 * 60
                                  then 24 * 60 * 60 else raw),
                                epoch := some ep8 }) hq1 hset2
                          exact ⟨h1, fun _ => inv_of_parts h2 h3 hlolt hq1 h4⟩
                        · rcases nop with _ | o
                          · simp only [hopv]
                            obtain ⟨hp1, hp2, hp3, hp4⟩ := ppmr_block
                              { s with queue := rest } tr (lo + 1) head.id
                              msg now
                              { vers := v, r := 1, op := b1 &&& 0x7F,
                                resultCode := some rc,
                                lifetime := some (if raw > 24 * 60 * 60
                                  then 24 * 60 * 60 else raw),
                                epoch := some ep8 } hq1 hset2
                            rcases hpr : (processPCPMapResponse
                                { s with queue := rest } head.id msg now
                                { vers := v, r := 1, op := b1 &&& 0x7F,
                                  resultCode := some rc,
                                  lifetime := some (if raw > 24 * 60 * 60
                                    then 24 * 60 * 60 else raw),
                                  epoch := some ep8 }).2.2 with _ | p2 <;>
                              simp only [hpr]
                            · exact ⟨hp1, fun h => by simp at h⟩
                            · obtain ⟨hb1, hb2, hb3, hb4⟩ := cbStep_block2
                                (processPCPMapResponse
                                  { s with queue := rest } head.id msg now
                                  { vers := v, r := 1, op := b1 &&& 0x7F,
                                    resultCode := some rc,
                                    lifetime := some (if raw > 24 * 60 * 60
                                      then 24 * 60 * 60 else raw),
                                    epoch := some ep8 }).1
                                { s with queue := rest }
                                (tr ++ (processPCPMapResponse
                                  { s with queue := rest } head.id msg now
                                  { vers := v, r := 1, op := b1 &&& 0x7F,
                                    resultCode := some rc,
                                    lifetime := some (if raw > 24 * 60 * 60
                                      then 24 * 60 * 60 else raw),
                                    epoch := some ep8 }).2.1)
                                (lo + 1) head.id (.ok p2) hp2 hp3 hq1 hp4
                              refine ⟨blockOk_append tr _ _ hp1 hb1,
                                fun _ => inv_of_parts hb2 hb3 hlolt hq1 ?_⟩
                              intro i hi
                              rw [← List.append_assoc]
                              exact hb4 i hi
                          · simp only [hopv]
                            obtain ⟨h1, h2, h3, h4⟩ := cbStep_block
                              { s with queue := rest } tr (lo + 1) head.id
                              (.error ("Unsupported opcode: " ++
                                toString (o + 2))) hq1 hset2
                            exact ⟨h1, fun _ =>
                              inv_of_parts h2 h3 hlolt hq1 h4⟩

theorem step_block (s : GState) (tr : List Action) (e : Event)
    (hInv : Inv s tr) :
    BlockOk tr (step s e).2.1 ∧
    ((step s e).2.2 = true → Inv (step s e).1 (tr ++ (step s e).2.1)) := by
  obtain ⟨lo, hlo, hq, hset⟩ := hInv
  cases e with
  | request op =>
    simp only [step]
    have hq1 : qIds { s with
                  queue := s.queue ++ [⟨s.nextId, op⟩]
                  nextId := s.nextId + 1 } =
        consecFrom lo (s.nextId + 1 - lo) := by
      show (s.queue ++ [Req.mk s.nextId op]).map Req.id = _
      rw [List.map_append]
      show qIds s ++ [s.nextId] = _
      have he : s.nextId + 1 - lo = (s.nextId - lo) + 1 := by omega
      have h2 : lo + (s.nextId - lo) = s.nextId := by omega
      rw [hq, he, consecFrom_append, h2]
    refine ⟨nextStep_blockOk _ tr lo hq1 hset, fun _ => ?_⟩
    exact inv_of_parts (nextStep_state _).1 (nextStep_state _).2.1
      (Nat.le_succ_of_le hlo) hq1
      (fun i hi => settledIn_append_right tr _ i (hset i hi))
  | listening =>
    simp only [step]
    have hq1 : qIds { s with listening := true, connecting := false } =
        consecFrom lo
          (({ s with listening := true, connecting := false } : GState).nextId
            - lo) := hq
    refine ⟨nextStep_blockOk _ tr lo hq1 hset, fun _ => ?_⟩
    exact inv_of_parts (nextStep_state _).1 (nextStep_state _).2.1
      hlo hq1
      (fun i hi => settledIn_append_right tr _ i (hset i hi))
  | message msg now => exact onMessage_block s tr msg now ⟨lo, hlo, hq, hset⟩
  | close =>
    simp only [step]
    refine ⟨blockOk_nil tr, fun _ => ?_⟩
    rw [List.append_nil]
    exact ⟨lo, hlo, hq, hset⟩
  | stop =>
    simp only [step]
    constructor
    · intro p j hp i hij
      have hmem : Action.send j ∈
          s.queue.map (fun r => Action.drop r.id) :=
        List.mem_iff_get?.mpr ⟨p, hp⟩
      rcases List.mem_map.mp hmem with ⟨r, hrq, hr2⟩
      simp at hr2
    · intro _
      refine ⟨s.nextId, le_refl _, ?_, ?_⟩
      · show ([] : List Nat) = consecFrom s.nextId (s.nextId - s.nextId)
        rw [Nat.sub_self]
        rfl
      · intro i hi
        by_cases hil : i < lo
        · exact settledIn_append_right tr _ i (hset i hil)
        · have hi2 : i ∈ qIds s := by
            rw [hq]
            exact (consecFrom_mem i _ lo).mpr ⟨by omega, by omega⟩
          rcases List.mem_map.mp hi2 with ⟨r, hrq, hrid⟩
          refine settledIn_append_left tr _ i
            ⟨Action.drop r.id, List.mem_map.mpr ⟨r, hrq, rfl⟩, ?_⟩
          simp [isSettle, hrid]

theorem run_spec (events : List Event) :
    ∀ (s : GState) (tr : List Action), Inv s tr → fifoTrace tr →
      fifoTrace (tr ++ (run s events).2.1) ∧
      ((run s events).2.2 = true →
        Inv (run s events).1 (tr ++ (run s events).2.1)) := by
  induction events with
  | nil =>
    intro s tr hInv hf
    simp only [run]
    rw [List.append_nil]
    exact ⟨hf, fun _ => hInv⟩
  | cons e es ih =>
    intro s tr hInv hf
    obtain ⟨hB, hI⟩ := step_block s tr e hInv
    simp only [run]
    by_cases hok : (step s e).2.2 = true
    · rw [if_pos hok]
      obtain ⟨hf2, hI2⟩ := ih (step s e).1 (tr ++ (step s e).2.1) (hI hok)
        (fifo_extend tr _ hf hB)
      constructor
      · rw [← List.append_assoc]
        exact hf2
      · intro h2
        rw [← List.append_assoc]
        exact hI2 h2
    · rw [if_neg hok]
      exact ⟨fifo_extend tr _ hf hB, fun h2 => absurd h2 (by simp)⟩

/-- C3: the UDP request queue is single-flight FIFO.  (1) `_next` sends a
packet only when the queue is non-empty, the socket is listening and no
request is in flight, and the packet sent is the head of the queue.
(2) For every run of the event loop from a fresh gateway state, the emitted
trace is FIFO: whenever the `N`-th enqueued request is sent, every earlier
request — in particular the `(N−1)`-th — has already been resolved, rejected
or dropped earlier in the trace.  (3) A datagram whose opcode does not match
the head-of-queue request's opcode is ignored: state (queue and in-flight
marker) unchanged, no promise settled. -/
theorem c3_queue_fifo :
    (∀ s : GState, ∀ a ∈ (nextStep s).2, ∃ r rest, s.queue = r :: rest ∧
      a = Action.send r.id ∧ s.listening = true ∧ s.reqActive = false) ∧
    (∀ (ms : List GMapping) (events : List Event),
      fifoTrace (run { mappings := ms } events).2.1) ∧
    (∀ (s : GState) (head : Req) (rest : List Req) (msg : List Nat)
      (now : Int) (v b1 : Nat),
      s.queue = head :: rest → readUInt8 msg 0 = some v →
      readUInt8 msg 1 = some b1 → (b1 >>> 7) &&& 1 = 1 →
      b1 &&& 0x7F ≠ head.op →
      onMessage s msg now = (s, [], true)) := by
  refine ⟨?_, ?_, ?_⟩
  · intro s a ha
    rcases nextStep_actions s with h | ⟨r, t, hq, hb, hl, hra⟩
    · rw [h] at ha
      simp at ha
    · rw [hb] at ha
      have ha2 : a = Action.send r.id := by simpa using ha
      exact ⟨r, t, hq, ha2, hl, hra⟩
  · intro ms events
    have hInv0 : Inv { mappings := ms } [] := by
      refine ⟨0, Nat.zero_le _, rfl, ?_⟩
      intro i hi
      exact absurd hi (Nat.not_lt_zero i)
    have h := (run_spec events { mappings := ms } [] hInv0 fifo_nil).1
    rw [List.nil_append] at h
    exact h
  · intro s head rest msg now v b1 hq h0 h1 hr hop
    exact onMessage_mismatch s msg now head rest v b1 hq h0 h1 hr hop

theorem c3_queue_fifo_witness :
    (∃ r rest, c3SendState.queue = r :: rest ∧
      Action.send 0 = Action.send r.id ∧ c3SendState.listening = true ∧
      c3SendState.reqActive = false) ∧
    (∃ q < 2, ∃ a,
      (run { mappings := [] } c3Events).2.1.get? q = some a ∧
      isSettle 0 a = true) ∧
    onMessage c3MismatchState c3BadMsg 5 = (c3MismatchState, [], true) := by
  refine ⟨?_, ?_, ?_⟩
  · exact c3_queue_fifo.1 c3SendState (Action.send 0) (by decide)
  · exact c3_queue_fifo.2.1 [] c3Events 2 1 rfl 0 (by decide)
  · exact c3_queue_fifo.2.2 c3MismatchState ⟨7, 1⟩ [] c3BadMsg 5 2 128 rfl
      rfl rfl (by decide) (by decide)

end NatPM.PCPGw
